import Mathlib

/-!
# DS Mod Installer: the sync / install / launch sequence of `src/main.js`

A shallow embedding of the Electron main process of the tray utility.  The
program is a sequence of calls into external tools (the file system, git, npm,
the process launcher, the Electron application object).  The embedding keeps
the module-level variables of `main.js` in a `World`, records every call into
an external tool as an `Effect` in a chronological trace, and takes what the
external tools answer from an `Env` given to each sequence.

Conventions of the embedding:

* an `Error` object is represented by its `message`; where the source prints
  `error.stack` or the error object itself the embedding prints the first line
  of the stack, `Error: <message>` (stack frames are not represented);
* a `Buffer` chunk is represented by the text `${data}` renders;
* `path.join(a, b)` is `a ++ "\\" ++ b`, with `%APPDATA%` read from the world;
* `child_process.spawn` returns a fresh `ChildProcess`, identified by a number;
  what the process does afterwards arrives as events;
* an awaited operation that never settles is `Res.pending`: the sequence that
  awaits it performs no further step;
* a handler runs to completion before the next one starts: a sequence is one
  step of the state machine, and the listeners of `installDependencies` are run
  up to the event that settles its promise;
* the lines `Effect.call` and `Effect.settled` are instrumentation of the three
  functions of a sequence: they record when a function is invoked and how the
  promise it returns settles.
-/

namespace DsModInstaller

/-- Identity of a `ChildProcess` object returned by `spawn`. -/
abbrev Handle := Nat

/-- The three functions a sequence calls, for the call instrumentation. -/
inductive Fn
  | cloneOrPullRepo
  | installDependencies
  | startNodeProcess
  deriving DecidableEq, Repr

/-- One observable action of the main process, in the order performed. -/
inductive Effect
  | mkdir (path : String)
  | clone (url : String) (path : String)
  | pull (cwd : String)
  | spawn (h : Handle) (cmd : String) (args : List String) (cwd : String) (shell : Bool)
  | kill (h : Handle)
  | log (line : String)
  | error (line : String)
  | quit
  | call (f : Fn)
  | settled (f : Fn) (ok : Bool)
  deriving DecidableEq, Repr

/-- How an awaited call ends: it returns, it throws an error with the given
message, or it never settles. -/
inductive Res
  | ok
  | threw (message : String)
  | pending
  deriving DecidableEq, Repr

/-- How the promise of a git operation settles. -/
inductive GitOutcome
  | fulfilled
  | rejected (message : String)
  | pending
  deriving DecidableEq, Repr

/-- An event of the npm child process, as delivered to the listeners that
`installDependencies` registers. The exit code of `close` is `none` for the
JavaScript value `null` (the process was ended by a signal). -/
inductive NpmEvent
  | stdout (data : String)
  | stderr (data : String)
  | error (message : String)
  | close (code : Option Int)
  deriving DecidableEq, Repr

/-- What the external tools answer during one sequence. -/
structure Env where
  /-- the message of the error `fs.mkdirSync` throws, `none` when it succeeds -/
  mkdir : Option String
  /-- how the one git operation of the sequence (clone or pull) settles -/
  git : GitOutcome
  /-- the events of the npm child process, in arrival order -/
  npm : List NpmEvent
  deriving DecidableEq, Repr

/-- The module-level state of `main.js` together with the part of the outside
world it reads, and the trace of its actions. -/
structure World where
  /-- the value of `process.env.APPDATA` -/
  appData : String
  /-- the directories that exist -/
  dirs : List String
  /-- the variable `nodeProcess` (`none` for `null`) -/
  nodeProcess : Option Handle
  /-- the number of child processes spawned so far -/
  spawned : Nat
  /-- the actions performed so far, oldest first -/
  trace : List Effect
  deriving DecidableEq, Repr

/-- `String.prototype.includes`: `pat` occurs in `s` as a contiguous run. -/
def includes (s pat : String) : Bool := decide (pat.data <:+: s.data)

/-- `path.join(a, b)` for two plain segments. -/
def pathJoin (a b : String) : String := a ++ "\\" ++ b

/-- `appDataPath = path.join(process.env.APPDATA, 'dsmodinstaller')`. -/
def appDataPath (w : World) : String := pathJoin w.appData "dsmodinstaller"

/-- `repoPath = path.join(appDataPath, 'sheltupdate6686')`. -/
def repoPath (w : World) : String := pathJoin (appDataPath w) "sheltupdate6686"

/-- The fixed remote of `git.clone`. -/
def remoteUrl : String := "https://github.com/6686-repos/sheltupdate6686"

/-- `fs.existsSync`. -/
def existsSync (w : World) (p : String) : Bool := decide (p ∈ w.dirs)

/-- Append one action to the trace. -/
def emit (e : Effect) (w : World) : World := { w with trace := w.trace ++ [e] }

/-- `console.log`. -/
def consoleLog (line : String) (w : World) : World := emit (.log line) w

/-- `console.error`. -/
def consoleError (line : String) (w : World) : World := emit (.error line) w

/-- `ensureDirectoryExists(dirPath)`: `mkdirSync` is called only when the
directory is missing; it creates the directory or throws. -/
def ensureDirectoryExists (env : Env) (dirPath : String) (w : World) : Res × World :=
  if !existsSync w dirPath then
    let w := emit (.mkdir dirPath) w
    match env.mkdir with
    | some m => (.threw m, w)
    | none => (.ok, { w with dirs := dirPath :: w.dirs })
  else (.ok, w)

/-- The `catch` block of `cloneOrPullRepo`. -/
def gitFailed (message : String) (w : World) : Res × World :=
  let w := consoleError ("Git operation failed: " ++ message) w
  (.threw ("Git operation failed: " ++ message), emit (.settled .cloneOrPullRepo false) w)

/-- `git.clone(url, target)`: a fulfilled clone has created `target`. -/
def gitClone (env : Env) (url target : String) (w : World) : Res × World :=
  let w := emit (.clone url target) w
  match env.git with
  | .fulfilled => (.ok, { w with dirs := target :: w.dirs })
  | .rejected m => (.threw m, w)
  | .pending => (.pending, w)

/-- `git.cwd(dir).pull()`. -/
def gitPull (env : Env) (dir : String) (w : World) : Res × World :=
  let w := emit (.pull dir) w
  match env.git with
  | .fulfilled => (.ok, w)
  | .rejected m => (.threw m, w)
  | .pending => (.pending, w)

/-- `cloneOrPullRepo()`. -/
def cloneOrPullRepo (env : Env) (w : World) : Res × World :=
  let w := emit (.call .cloneOrPullRepo) w
  match ensureDirectoryExists env (appDataPath w) w with
  | (.threw m, w) => gitFailed m w
  | (.pending, w) => (.pending, w)
  | (.ok, w) =>
    if !existsSync w (repoPath w) then
      let w := consoleLog "Repository not found, attempting to clone..." w
      match gitClone env remoteUrl (repoPath w) w with
      | (.threw m, w) => gitFailed m w
      | (.pending, w) => (.pending, w)
      | (.ok, w) =>
        let w := consoleLog "Repository cloned successfully" w
        (.ok, emit (.settled .cloneOrPullRepo true) w)
    else
      let w := consoleLog "Repository exists, pulling latest changes..." w
      match gitPull env (repoPath w) w with
      | (.threw m, w) => gitFailed m w
      | (.pending, w) => (.pending, w)
      | (.ok, w) =>
        let w := consoleLog "Repository updated successfully" w
        (.ok, emit (.settled .cloneOrPullRepo true) w)

/-- The template literal `${code}` for an exit code. -/
def renderCode : Option Int → String
  | some c => toString c
  | none => "null"

/-- The message built by the `close` listener for a code other than `0`. -/
def installErrorMessage (code : Option Int) (stdoutData stderrData : String) : String :=
  "npm install failed with code " ++ renderCode code ++ "\nOutput: " ++ stdoutData
    ++ "\nErrors: " ++ stderrData

/-- The listeners of `installDependencies`, run over the events of the npm
process up to the first event that settles the promise. `stdoutData` and
`stderrData` are the two accumulators of the closure. -/
def npmListen : List NpmEvent → String → String → World → Res × World
  | [], _, _, w => (.pending, w)
  | .stdout d :: evs, stdoutData, stderrData, w =>
    npmListen evs (stdoutData ++ d) stderrData (consoleLog ("npm install output: " ++ d) w)
  | .stderr d :: evs, stdoutData, stderrData, w =>
    npmListen evs stdoutData (stderrData ++ d) (consoleError ("npm install error: " ++ d) w)
  | .error m :: _, _, _, w =>
    (.threw ("Failed to start npm: " ++ m),
      consoleError ("Failed to start npm process: Error: " ++ m) w)
  | .close code :: _, stdoutData, stderrData, w =>
    if code = some 0 then
      (.ok, consoleLog "npm install completed successfully" w)
    else
      (.threw (installErrorMessage code stdoutData stderrData),
        consoleError (installErrorMessage code stdoutData stderrData) w)

/-- Record how an instrumented function settled. -/
def settle (f : Fn) : Res × World → Res × World
  | (.ok, w) => (.ok, emit (.settled f true) w)
  | (.threw m, w) => (.threw m, emit (.settled f false) w)
  | (.pending, w) => (.pending, w)

/-- `installDependencies()`. -/
def installDependencies (env : Env) (w : World) : Res × World :=
  let w := emit (.call .installDependencies) w
  let w := consoleLog "Starting npm install..." w
  let w := { emit (.spawn w.spawned "npm" ["install"] (repoPath w) true) w with
             spawned := w.spawned + 1 }
  settle .installDependencies (npmListen env.npm "" "" w)

/-- `startNodeProcess()`. -/
def startNodeProcess (w : World) : World :=
  let w := emit (.call .startNodeProcess) w
  let w := match w.nodeProcess with
    | some h => emit (.kill h) w
    | none => w
  let w := { emit (.spawn w.spawned "node" ["src/index.js"] (repoPath w) false) w with
             nodeProcess := some w.spawned, spawned := w.spawned + 1 }
  emit (.settled .startNodeProcess true) w

/-- The three remediation lines of the startup sequence. -/
def spawnHint : String :=
  "Failed to start npm. Please ensure npm is installed and accessible in your PATH."

/-- The line logged for an install failure. -/
def installHint : String :=
  "Failed to install dependencies. Check the error log above for details."

/-- The second line logged for an install failure. -/
def installSolutions : String :=
  "Common solutions:\n1. Check your internet connection\n2. Clear npm cache (run npm cache clean --force)\n3. Delete node_modules folder and try again"

/-- The line logged for a sync failure. -/
def syncHint : String :=
  "Failed to clone/pull repository. Please check your internet connection and try again."

/-- The `catch` block of the startup sequence. -/
def startupFailed (message : String) (w : World) : World :=
  let w := consoleError ("Initialization failed: Error: " ++ message) w
  let w :=
    if includes message "Failed to start npm" then
      consoleError spawnHint w
    else if includes message "npm install failed" then
      consoleError installSolutions (consoleError installHint w)
    else if includes message "git" then
      consoleError syncHint w
    else w
  emit .quit w

/-- The startup sequence, the function named initialize in `main.js`. -/
def initializeSequence (env : Env) (w : World) : Res × World :=
  let w := consoleLog "Starting initialization..." w
  let w := consoleLog "Cloning or pulling repository..." w
  match cloneOrPullRepo env w with
  | (.threw m, w) => (.ok, startupFailed m w)
  | (.pending, w) => (.pending, w)
  | (.ok, w) =>
    let w := consoleLog "Installing dependencies..." w
    match installDependencies env w with
    | (.threw m, w) => (.ok, startupFailed m w)
    | (.pending, w) => (.pending, w)
    | (.ok, w) =>
      let w := consoleLog "Starting node process..." w
      let w := startNodeProcess w
      (.ok, consoleLog "Initialization completed successfully" w)

/-- The `click` handler of the tray item Restart. -/
def restartClick (env : Env) (w : World) : Res × World :=
  match cloneOrPullRepo env w with
  | (.threw m, w) => (.ok, consoleError ("Failed to restart process: Error: " ++ m) w)
  | (.pending, w) => (.pending, w)
  | (.ok, w) =>
    match installDependencies env w with
    | (.threw m, w) => (.ok, consoleError ("Failed to restart process: Error: " ++ m) w)
    | (.pending, w) => (.pending, w)
    | (.ok, w) => (.ok, startNodeProcess w)

/-- The `click` handler of the tray item Exit. -/
def exitClick (w : World) : World :=
  let w := match w.nodeProcess with
    | some h => emit (.kill h) w
    | none => w
  emit .quit w

/-- The `before-quit` handler. -/
def beforeQuit (w : World) : World :=
  match w.nodeProcess with
  | some h => emit (.kill h) w
  | none => w

/-- The `window-all-closed` handler. -/
def windowAllClosed (platform : String) (w : World) : World :=
  if platform ≠ "darwin" then emit .quit w else w

/-- The `close` listener that `startNodeProcess` registers on the child. -/
def childClose (code : Option Int) (w : World) : World :=
  consoleLog ("Child process exited with code " ++ renderCode code) w

/-- The `data` listener on the child's standard output. -/
def childStdout (data : String) (w : World) : World :=
  consoleLog ("stdout: " ++ data) w

/-- The `data` listener on the child's standard error. -/
def childStderr (data : String) (w : World) : World :=
  consoleError ("stderr: " ++ data) w

/-- What can happen to the running application: each constructor is one
handler of `main.js`, run to completion. -/
inductive Input
  | startup (env : Env)
  | restart (env : Env)
  | exit
  | beforeQuit
  | windowAllClosed (platform : String)
  | childStdout (data : String)
  | childStderr (data : String)
  | childClose (code : Option Int)
  deriving DecidableEq, Repr

/-- Run one handler. -/
def step (w : World) : Input → World
  | .startup env => (initializeSequence env w).2
  | .restart env => (restartClick env w).2
  | .exit => exitClick w
  | .beforeQuit => beforeQuit w
  | .windowAllClosed p => windowAllClosed p w
  | .childStdout d => childStdout d w
  | .childStderr d => childStderr d w
  | .childClose c => childClose c w

/-- The world when `main.js` is loaded: no child process, nothing done yet. -/
def initialWorld (appData : String) (dirs : List String) : World :=
  { appData := appData, dirs := dirs, nodeProcess := none, spawned := 0, trace := [] }

/-- The world after a run of handlers from the initial world. -/
def runFrom (appData : String) (dirs : List String) (inputs : List Input) : World :=
  inputs.foldl step (initialWorld appData dirs)

/-- The states the application can be in. -/
def Reachable (w : World) : Prop :=
  ∃ appData dirs inputs, w = runFrom appData dirs inputs

/-! ## Vocabulary of the properties -/

/-- The actions a sequence appended: the trace of `w'` after that of `w`. -/
def effectsSince (w w' : World) : List Effect := w'.trace.drop w.trace.length

/-- A clone attempt. -/
def isClone : Effect → Bool
  | .clone _ _ => true
  | _ => false

/-- A pull attempt. -/
def isPull : Effect → Bool
  | .pull _ => true
  | _ => false

/-- A line of the error log (`console.error`). -/
def isErrorLine : Effect → Bool
  | .error _ => true
  | _ => false

/-- The start of a supervised process: `spawn('node', ...)`. -/
def isNodeSpawn : Effect → Bool
  | .spawn _ cmd _ _ _ => cmd == "node"
  | _ => false

/-- A termination signal. -/
def isKill : Effect → Bool
  | .kill _ => true
  | _ => false

/-- An instrumentation line. -/
def isCallEvent : Effect → Bool
  | .call _ => true
  | .settled _ _ => true
  | _ => false

/-- The trace of calls of a sequence. -/
def callTrace (l : List Effect) : List Effect := l.filter isCallEvent

/-- A `data` event of the npm process. -/
def NpmEvent.isData : NpmEvent → Bool
  | .stdout _ => true
  | .stderr _ => true
  | _ => false

/-- The concatenation of the standard-output chunks, in arrival order. -/
def stdoutText : List NpmEvent → String
  | [] => ""
  | .stdout d :: evs => d ++ stdoutText evs
  | _ :: evs => stdoutText evs

/-- The concatenation of the standard-error chunks, in arrival order. -/
def stderrText : List NpmEvent → String
  | [] => ""
  | .stderr d :: evs => d ++ stderrText evs
  | _ :: evs => stderrText evs

/-- The lines the listeners of `installDependencies` write, as a function of
the events alone. -/
def npmLines : List NpmEvent → String → String → List Effect
  | [], _, _ => []
  | .stdout d :: evs, o, e => .log ("npm install output: " ++ d) :: npmLines evs (o ++ d) e
  | .stderr d :: evs, o, e => .error ("npm install error: " ++ d) :: npmLines evs o (e ++ d)
  | .error m :: _, _, _ => [.error ("Failed to start npm process: Error: " ++ m)]
  | .close code :: _, o, e =>
    if code = some 0 then [.log "npm install completed successfully"]
    else [.error (installErrorMessage code o e)]

/-- How the promise of `installDependencies` settles, as a function of the
events alone. -/
def npmResult : List NpmEvent → String → String → Res
  | [], _, _ => .pending
  | .stdout d :: evs, o, e => npmResult evs (o ++ d) e
  | .stderr d :: evs, o, e => npmResult evs o (e ++ d)
  | .error m :: _, _, _ => .threw ("Failed to start npm: " ++ m)
  | .close code :: _, o, e =>
    if code = some 0 then .ok else .threw (installErrorMessage code o e)

/-- The actions of the directory step of `cloneOrPullRepo`. -/
def dirLines (w : World) : List Effect :=
  if existsSync w (appDataPath w) then [] else [.mkdir (appDataPath w)]

/-- The directories after a directory step that did not throw. -/
def dirsAfterMkdir (w : World) : List String :=
  if existsSync w (appDataPath w) then w.dirs else appDataPath w :: w.dirs

/-- The directory step of `cloneOrPullRepo` does not throw. -/
def MkdirPasses (env : Env) (w : World) : Prop :=
  existsSync w (appDataPath w) = true ∨ env.mkdir = none

instance (env : Env) (w : World) : Decidable (MkdirPasses env w) := by
  unfold MkdirPasses; infer_instance

/-- A transition that leaves the child-process variable and `%APPDATA%` alone,
never reuses a handle, and appends to the trace only actions satisfying
`allowed`. -/
def Frame (allowed : Effect → Bool) (w w' : World) : Prop :=
  w'.nodeProcess = w.nodeProcess ∧ w.spawned ≤ w'.spawned ∧ w'.appData = w.appData ∧
    w.trace <+: w'.trace ∧ ∀ e ∈ effectsSince w w', allowed e = true

/-- The actions `cloneOrPullRepo` can perform. -/
def syncAllowed : Effect → Bool
  | .call .cloneOrPullRepo => true
  | .settled .cloneOrPullRepo _ => true
  | .mkdir _ => true
  | .clone _ _ => true
  | .pull _ => true
  | .log _ => true
  | .error _ => true
  | _ => false

/-- The actions `installDependencies` can perform. -/
def installAllowed : Effect → Bool
  | .call .installDependencies => true
  | .settled .installDependencies _ => true
  | .spawn _ cmd _ _ _ => cmd == "npm"
  | .log _ => true
  | .error _ => true
  | _ => false

/-- A world used in the examples: nothing exists yet, no child is held. -/
def freshWorld : World :=
  { appData := "C:\\Users\\u\\AppData\\Roaming", dirs := [], nodeProcess := none,
    spawned := 0, trace := [] }

/-- A world used in the examples: the working copy exists and the supervised
process with handle `0` is held. -/
def runningWorld : World :=
  { appData := "C:\\Users\\u\\AppData\\Roaming",
    dirs := ["C:\\Users\\u\\AppData\\Roaming\\dsmodinstaller\\sheltupdate6686",
      "C:\\Users\\u\\AppData\\Roaming\\dsmodinstaller"],
    nodeProcess := some 0, spawned := 1,
    trace := [.spawn 0 "node" ["src/index.js"]
      "C:\\Users\\u\\AppData\\Roaming\\dsmodinstaller\\sheltupdate6686" false] }

/-- C2 as stated: what one call of `cloneOrPullRepo` attempts. -/
def SyncAttemptsOnce (env : Env) (w : World) : Prop :=
  (existsSync w (repoPath w) = false →
    (effectsSince w (cloneOrPullRepo env w).2).filter isClone
        = [.clone remoteUrl (repoPath w)] ∧
      (effectsSince w (cloneOrPullRepo env w).2).filter isPull = [] ∧
      (env.git = .fulfilled → existsSync (cloneOrPullRepo env w).2 (repoPath w) = true)) ∧
  (existsSync w (repoPath w) = true →
    (effectsSince w (cloneOrPullRepo env w).2).filter isPull = [.pull (repoPath w)] ∧
      (effectsSince w (cloneOrPullRepo env w).2).filter isClone = [])

/-- A line written with `console.log` or `console.error`. -/
def isConsole : Effect → Bool
  | .log _ => true
  | .error _ => true
  | _ => false

/-- A call that settled as failed. -/
def isFailure : Effect → Bool
  | .settled _ false => true
  | _ => false

/-- Every occurrence of `b` in `l` comes after an occurrence of `a`. -/
def PrecededBy (a b : Effect) (l : List Effect) : Prop :=
  ∀ i, i < l.length → l[i]? = some b → a ∈ l.take i

instance (a b : Effect) (l : List Effect) : Decidable (PrecededBy a b l) := by
  unfold PrecededBy; infer_instance

/-- The invocation of one of the three functions. -/
def isCall : Effect → Bool
  | .call _ => true
  | _ => false

/-- After a call that settled as failed no function is called. -/
def StopsAtFailure (l : List Effect) : Prop :=
  ∀ i, i < l.length → (l[i]?.map isFailure) = some true →
    ∀ e ∈ l.drop (i + 1), isCall e = false

instance (l : List Effect) : Decidable (StopsAtFailure l) := by
  unfold StopsAtFailure; infer_instance

/-- The order of calls C1 states for one sequence: an install is called only
after a sync that settled successfully, a launch only after an install that
settled successfully, and nothing is called after a failure. -/
def OrderedCalls (l : List Effect) : Prop :=
  PrecededBy (.settled .cloneOrPullRepo true) (.call .installDependencies) l ∧
    PrecededBy (.settled .installDependencies true) (.call .startNodeProcess) l ∧
    StopsAtFailure l

instance (l : List Effect) : Decidable (OrderedCalls l) := by
  unfold OrderedCalls; infer_instance

/-- The trace of calls of `cloneOrPullRepo`, by how it settles. -/
def syncCalls : Res → List Effect
  | .ok => [.call .cloneOrPullRepo, .settled .cloneOrPullRepo true]
  | .threw _ => [.call .cloneOrPullRepo, .settled .cloneOrPullRepo false]
  | .pending => [.call .cloneOrPullRepo]

/-- The trace of calls of `installDependencies`, by how it settles. -/
def installCalls : Res → List Effect
  | .ok => [.call .installDependencies, .settled .installDependencies true]
  | .threw _ => [.call .installDependencies, .settled .installDependencies false]
  | .pending => [.call .installDependencies]

/-- The trace of calls of a whole sequence, by how its first two steps settle. -/
def sequenceCalls (sync install : Res) : List Effect :=
  match sync with
  | .ok =>
    syncCalls sync ++ installCalls install ++
      (match install with
        | .ok => [.call .startNodeProcess, .settled .startNodeProcess true]
        | _ => [])
  | _ => syncCalls sync

/-- The actions of one call of `startNodeProcess`. -/
def launchLines (w : World) : List Effect :=
  [.call .startNodeProcess] ++
    (match w.nodeProcess with
      | some h => [.kill h]
      | none => []) ++
    [.spawn w.spawned "node" ["src/index.js"] (repoPath w) false,
      .settled .startNodeProcess true]

/-- How a call of `cloneOrPullRepo` settles. -/
def syncResult (env : Env) (w : World) : Res := (cloneOrPullRepo env w).1

/-- The directories after a call of `cloneOrPullRepo`. -/
def syncDirs (env : Env) (w : World) : List String := (cloneOrPullRepo env w).2.dirs

/-- The actions of one call of `cloneOrPullRepo`. -/
def syncLines (env : Env) (w : World) : List Effect :=
  effectsSince w (cloneOrPullRepo env w).2

/-- The instrumentation line for a settled call; none while it is pending. -/
def settleLine (f : Fn) : Res → List Effect
  | .ok => [.settled f true]
  | .threw _ => [.settled f false]
  | .pending => []

/-- The actions of one call of `installDependencies`. -/
def installLines (env : Env) (w : World) : List Effect :=
  [.call .installDependencies, .log "Starting npm install...",
    .spawn w.spawned "npm" ["install"] (repoPath w) true] ++ npmLines env.npm "" "" ++
    settleLine .installDependencies (npmResult env.npm "" "")

/-- The remediation lines the `catch` block of the startup sequence chooses. -/
def hintLines (message : String) : List Effect :=
  if includes message "Failed to start npm" then [.error spawnHint]
  else if includes message "npm install failed" then [.error installHint, .error installSolutions]
  else if includes message "git" then [.error syncHint]
  else []

/-- The actions of the `catch` block of the startup sequence. -/
def failureLines (message : String) : List Effect :=
  [.error ("Initialization failed: Error: " ++ message)] ++ hintLines message ++ [.quit]

/-- The world in which a sequence calls `startNodeProcess`: npm has been
spawned since the sequence began. -/
def afterInstall (w : World) : World := { w with spawned := w.spawned + 1 }

/-- The actions of the steps that follow a successful sync in the startup
sequence. -/
def startupTail (env : Env) (w : World) : List Effect :=
  [.log "Installing dependencies..."] ++ installLines env w ++
    match npmResult env.npm "" "" with
    | .threw m => failureLines m
    | .pending => []
    | .ok =>
      [.log "Starting node process..."] ++ launchLines (afterInstall w) ++
        [.log "Initialization completed successfully"]

/-- The actions of the startup sequence. -/
def startupLines (env : Env) (w : World) : List Effect :=
  [.log "Starting initialization...", .log "Cloning or pulling repository..."] ++
    syncLines env w ++
    match syncResult env w with
    | .threw m => failureLines m
    | .pending => []
    | .ok => startupTail env w

/-- The actions of the steps that follow a successful sync in a restart. -/
def restartTail (env : Env) (w : World) : List Effect :=
  installLines env w ++
    match npmResult env.npm "" "" with
    | .threw m => [.error ("Failed to restart process: Error: " ++ m)]
    | .pending => []
    | .ok => launchLines (afterInstall w)

/-- The actions of the Restart handler. -/
def restartLines (env : Env) (w : World) : List Effect :=
  syncLines env w ++
    match syncResult env w with
    | .threw m => [.error ("Failed to restart process: Error: " ++ m)]
    | .pending => []
    | .ok => restartTail env w

/-- A sequence reaches its launch step: sync and install both settle
successfully. -/
def Launches (env : Env) (w : World) : Prop :=
  syncResult env w = .ok ∧ npmResult env.npm "" "" = .ok

instance (env : Env) (w : World) : Decidable (Launches env w) := by
  unfold Launches; infer_instance

/-- The result a sequence awaits to: pending while one of its awaited steps is. -/
def sequenceResult (env : Env) (w : World) : Res :=
  match syncResult env w with
  | .pending => .pending
  | .threw _ => .ok
  | .ok =>
    match npmResult env.npm "" "" with
    | .pending => .pending
    | _ => .ok

/-- The number of child processes a sequence spawns. -/
def sequenceSpawns (env : Env) (w : World) : Nat :=
  match syncResult env w with
  | .ok =>
    match npmResult env.npm "" "" with
    | .ok => 2
    | _ => 1
  | _ => 0

/-- The variable `nodeProcess` after a sequence. -/
def sequenceChild (env : Env) (w : World) : Option Handle :=
  if Launches env w then some (w.spawned + 1) else w.nodeProcess

/-- The lines that forward the `data` chunks of the npm process. -/
def dataLines : List NpmEvent → List Effect
  | [] => []
  | .stdout d :: evs => .log ("npm install output: " ++ d) :: dataLines evs
  | .stderr d :: evs => .error ("npm install error: " ++ d) :: dataLines evs
  | _ :: evs => dataLines evs

/-- What C4 states, for the startup sequence run in `w` with the npm process
delivering the chunks `evs` and then closing with code `c`: the error that ends
the sequence carries the code, the install hint is logged and neither the spawn
hint nor the sync hint is, no supervised process is started, and the
application quits. -/
def InstallFailureReported (env : Env) (w : World) (evs : List NpmEvent) (c : Int) : Prop :=
  includes (installErrorMessage (some c) (stdoutText evs) (stderrText evs)) (toString c) = true ∧
    Effect.error ("Initialization failed: Error: " ++
        installErrorMessage (some c) (stdoutText evs) (stderrText evs))
      ∈ effectsSince w (initializeSequence env w).2 ∧
    Effect.error installHint ∈ effectsSince w (initializeSequence env w).2 ∧
    Effect.error spawnHint ∉ effectsSince w (initializeSequence env w).2 ∧
    Effect.error syncHint ∉ effectsSince w (initializeSequence env w).2 ∧
    (effectsSince w (initializeSequence env w).2).filter isNodeSpawn = [] ∧
    Effect.call .startNodeProcess ∉ effectsSince w (initializeSequence env w).2 ∧
    (initializeSequence env w).2.nodeProcess = w.nodeProcess ∧
    Effect.quit ∈ effectsSince w (initializeSequence env w).2

/-- A world used in the examples: the working copy exists and no child is
held yet. -/
def syncedWorld : World :=
  { appData := "C:\\Users\\u\\AppData\\Roaming",
    dirs := ["C:\\Users\\u\\AppData\\Roaming\\dsmodinstaller\\sheltupdate6686",
      "C:\\Users\\u\\AppData\\Roaming\\dsmodinstaller"],
    nodeProcess := none, spawned := 0, trace := [] }

/-- C6 as stated, for a Restart in `w` while the child `h` is held: the old
child has been sent a termination signal, no supervised process has been
spawned, and the application has not quit. -/
def OldChildKilledNoneStarted (env : Env) (w : World) (h : Handle) : Prop :=
  Effect.kill h ∈ effectsSince w (restartClick env w).2 ∧
    (effectsSince w (restartClick env w).2).filter isNodeSpawn = [] ∧
    Effect.quit ∉ effectsSince w (restartClick env w).2

/-- The actions `cloneOrPullRepo` and `installDependencies` can perform. -/
def quietAllowed (e : Effect) : Bool := syncAllowed e || installAllowed e

/-- The handle a spawn of the supervised process returns, stored in
`nodeProcess` by `startNodeProcess`. -/
def storedHandle : Effect → Option Handle
  | .spawn h cmd _ _ _ => if cmd = "node" then some h else none
  | _ => none

/-- All handles ever stored in `nodeProcess`, oldest first. -/
def storedHandles (t : List Effect) : List Handle := t.filterMap storedHandle

/-- Of all handles ever stored, only the one currently held may lack a
termination signal. -/
def AtMostOneLive (w : World) : Prop :=
  ∀ h ∈ storedHandles w.trace, w.nodeProcess ≠ some h → Effect.kill h ∈ w.trace

/-- The invariant of the variable `nodeProcess`: stored handles are distinct
and older than the spawn counter, the held handle is the last one stored, and
every other stored handle has been sent a termination signal. -/
def ChildInvariant (w : World) : Prop :=
  (∀ h ∈ storedHandles w.trace, h < w.spawned) ∧ (storedHandles w.trace).Nodup ∧
    w.nodeProcess = (storedHandles w.trace).getLast? ∧ AtMostOneLive w

/-- A step of a sequence performed on an external tool: a clone, a pull, or
the spawn of a process. -/
def isExternalStep : Effect → Bool
  | .clone _ _ => true
  | .pull _ => true
  | .spawn _ _ _ _ _ => true
  | _ => false

/-- The lines that forward the standard-error chunks of npm to the error log. -/
def stderrLines : List NpmEvent → List Effect
  | [] => []
  | .stderr d :: evs => .error ("npm install error: " ++ d) :: stderrLines evs
  | _ :: evs => stderrLines evs

/-- The part of C10 about the steps: the startup sequence returns, performs
clone, install and launch once each in that order, holds the new child
afterwards, and does not quit. -/
def FirstRunCompletes (env : Env) (w : World) : Prop :=
  (initializeSequence env w).1 = .ok ∧
    callTrace (effectsSince w (initializeSequence env w).2)
      = [.call .cloneOrPullRepo, .settled .cloneOrPullRepo true,
          .call .installDependencies, .settled .installDependencies true,
          .call .startNodeProcess, .settled .startNodeProcess true] ∧
    (effectsSince w (initializeSequence env w).2).filter isExternalStep
      = [.clone remoteUrl (repoPath w),
          .spawn w.spawned "npm" ["install"] (repoPath w) true,
          .spawn (w.spawned + 1) "node" ["src/index.js"] (repoPath w) false] ∧
    (initializeSequence env w).2.nodeProcess = some (w.spawned + 1) ∧
    Effect.quit ∉ effectsSince w (initializeSequence env w).2

/-- C10 as stated: the first run completes and writes nothing to the error
log. -/
def CleanFirstRun (env : Env) (w : World) : Prop :=
  FirstRunCompletes env w ∧
    (effectsSince w (initializeSequence env w).2).filter isErrorLine = []

/-! ## Auxiliary facts -/

theorem effectsSince_mk (w : World) (a : String) (d : List String) (n : Option Handle)
    (s : Nat) (δ : List Effect) :
    effectsSince w ⟨a, d, n, s, w.trace ++ δ⟩ = δ := by
  simp [effectsSince]

theorem npmListen_eq (evs : List NpmEvent) (o e : String) (w : World) :
    npmListen evs o e w =
      (npmResult evs o e, { w with trace := w.trace ++ npmLines evs o e }) := by
  induction evs generalizing o e w with
  | nil => simp [npmListen, npmResult, npmLines]
  | cons ev evs ih =>
    cases ev with
    | stdout d => simp [npmListen, npmResult, npmLines, ih, consoleLog, emit]
    | stderr d => simp [npmListen, npmResult, npmLines, ih, consoleError, emit]
    | error m => simp [npmListen, npmResult, npmLines, consoleError, emit]
    | close code =>
      by_cases h : code = some 0 <;>
        simp [npmListen, npmResult, npmLines, consoleError, consoleLog, emit, h]

/-- A call of `installDependencies` in one step: the result and the lines
depend on the events of npm alone. -/
theorem installDependencies_eq (env : Env) (w : World) :
    installDependencies env w =
      (npmResult env.npm "" "",
        { w with
          spawned := w.spawned + 1
          trace := w.trace ++ ([.call .installDependencies, .log "Starting npm install...",
            .spawn w.spawned "npm" ["install"] (repoPath w) true] ++ npmLines env.npm "" "" ++
            (match npmResult env.npm "" "" with
              | .ok => [.settled .installDependencies true]
              | .threw _ => [.settled .installDependencies false]
              | .pending => [])) }) := by
  simp only [installDependencies, npmListen_eq]
  cases h : npmResult env.npm "" "" <;> simp [settle, emit, consoleLog, repoPath, appDataPath]

theorem pathJoin_ne_self (a b : String) : pathJoin a b ≠ a := by
  intro h
  have h2 := congrArg String.length h
  have h3 : "\\".length = 1 := by decide
  simp only [pathJoin, String.length_append, h3] at h2
  omega

theorem repoPath_ne_appDataPath (w : World) : repoPath w ≠ appDataPath w :=
  pathJoin_ne_self _ _

theorem sync_eq_of_mkdir_fails (env : Env) (w : World) (m : String)
    (h1 : existsSync w (appDataPath w) = false) (hm : env.mkdir = some m) :
    cloneOrPullRepo env w =
      (.threw ("Git operation failed: " ++ m),
        { w with trace := w.trace ++ [.call .cloneOrPullRepo, .mkdir (appDataPath w),
            .error ("Git operation failed: " ++ m), .settled .cloneOrPullRepo false] }) := by
  simp only [existsSync, appDataPath, decide_eq_false_iff_not] at h1
  simp [cloneOrPullRepo, ensureDirectoryExists, gitFailed, consoleError, emit, hm, h1,
    existsSync, appDataPath]

theorem sync_eq_clone (env : Env) (w : World) (hd : MkdirPasses env w)
    (h2 : existsSync w (repoPath w) = false) :
    cloneOrPullRepo env w =
      match env.git with
      | .fulfilled =>
        (.ok, { w with
          dirs := repoPath w :: dirsAfterMkdir w
          trace := w.trace ++ ([.call .cloneOrPullRepo] ++ dirLines w ++
            [.log "Repository not found, attempting to clone...", .clone remoteUrl (repoPath w),
              .log "Repository cloned successfully", .settled .cloneOrPullRepo true]) })
      | .rejected m =>
        (.threw ("Git operation failed: " ++ m), { w with
          dirs := dirsAfterMkdir w
          trace := w.trace ++ ([.call .cloneOrPullRepo] ++ dirLines w ++
            [.log "Repository not found, attempting to clone...", .clone remoteUrl (repoPath w),
              .error ("Git operation failed: " ++ m), .settled .cloneOrPullRepo false]) })
      | .pending =>
        (.pending, { w with
          dirs := dirsAfterMkdir w
          trace := w.trace ++ ([.call .cloneOrPullRepo] ++ dirLines w ++
            [.log "Repository not found, attempting to clone...",
              .clone remoteUrl (repoPath w)]) }) := by
  have hne := repoPath_ne_appDataPath w
  simp only [MkdirPasses, existsSync, appDataPath, repoPath, decide_eq_false_iff_not,
    decide_eq_true_eq] at h2 hd hne
  by_cases h1 : pathJoin w.appData "dsmodinstaller" ∈ w.dirs
  · cases hg : env.git <;>
      simp [cloneOrPullRepo, ensureDirectoryExists, gitFailed, gitClone, consoleError, consoleLog,
        emit, h1, h2, hg, existsSync, appDataPath, repoPath, dirLines, dirsAfterMkdir]
  · have hm : env.mkdir = none := hd.resolve_left h1
    cases hg : env.git <;>
      simp [cloneOrPullRepo, ensureDirectoryExists, gitFailed, gitClone, consoleError, consoleLog,
        emit, h1, h2, hg, hm, hne, existsSync, appDataPath, repoPath, dirLines, dirsAfterMkdir]

theorem sync_eq_pull (env : Env) (w : World) (hd : MkdirPasses env w)
    (h2 : existsSync w (repoPath w) = true) :
    cloneOrPullRepo env w =
      match env.git with
      | .fulfilled =>
        (.ok, { w with
          dirs := dirsAfterMkdir w
          trace := w.trace ++ ([.call .cloneOrPullRepo] ++ dirLines w ++
            [.log "Repository exists, pulling latest changes...", .pull (repoPath w),
              .log "Repository updated successfully", .settled .cloneOrPullRepo true]) })
      | .rejected m =>
        (.threw ("Git operation failed: " ++ m), { w with
          dirs := dirsAfterMkdir w
          trace := w.trace ++ ([.call .cloneOrPullRepo] ++ dirLines w ++
            [.log "Repository exists, pulling latest changes...", .pull (repoPath w),
              .error ("Git operation failed: " ++ m), .settled .cloneOrPullRepo false]) })
      | .pending =>
        (.pending, { w with
          dirs := dirsAfterMkdir w
          trace := w.trace ++ ([.call .cloneOrPullRepo] ++ dirLines w ++
            [.log "Repository exists, pulling latest changes...", .pull (repoPath w)]) }) := by
  simp only [MkdirPasses, existsSync, appDataPath, repoPath, decide_eq_false_iff_not,
    decide_eq_true_eq] at h2 hd
  by_cases h1 : pathJoin w.appData "dsmodinstaller" ∈ w.dirs
  · cases hg : env.git <;>
      simp [cloneOrPullRepo, ensureDirectoryExists, gitFailed, gitPull, consoleError, consoleLog,
        emit, h1, h2, hg, existsSync, appDataPath, repoPath, dirLines, dirsAfterMkdir]
  · have hm : env.mkdir = none := hd.resolve_left h1
    cases hg : env.git <;>
      simp [cloneOrPullRepo, ensureDirectoryExists, gitFailed, gitPull, consoleError, consoleLog,
        emit, h1, h2, hg, hm, existsSync, appDataPath, repoPath, dirLines, dirsAfterMkdir]

/-- The three ways a call of `cloneOrPullRepo` can go. -/
theorem sync_cases (env : Env) (w : World) :
    (∃ m, existsSync w (appDataPath w) = false ∧ env.mkdir = some m) ∨
      (MkdirPasses env w ∧ existsSync w (repoPath w) = false) ∨
      (MkdirPasses env w ∧ existsSync w (repoPath w) = true) := by
  unfold MkdirPasses
  cases h1 : existsSync w (appDataPath w) <;> cases hm : env.mkdir <;>
    cases h2 : existsSync w (repoPath w) <;> simp

/-! ### Substring search -/

theorem includes_iff (s pat : String) : includes s pat = true ↔ pat.data <:+: s.data := by
  simp [includes]

theorem includes_refl (s : String) : includes s s = true :=
  (includes_iff s s).2 (List.infix_refl _)

theorem includes_append_left (a b pat : String) (h : includes a pat = true) :
    includes (a ++ b) pat = true := by
  rw [includes_iff] at *
  rw [String.data_append]
  exact h.trans (List.prefix_append _ _).isInfix

theorem includes_append_right (a b pat : String) (h : includes b pat = true) :
    includes (a ++ b) pat = true := by
  rw [includes_iff] at *
  rw [String.data_append]
  exact h.trans (List.suffix_append _ _).isInfix

/-! ### The listeners of `installDependencies` -/

theorem npmResult_data_append (evs rest : List NpmEvent) (o e : String)
    (hdata : ∀ ev ∈ evs, ev.isData = true) :
    npmResult (evs ++ rest) o e = npmResult rest (o ++ stdoutText evs) (e ++ stderrText evs) := by
  induction evs generalizing o e with
  | nil => simp [stdoutText, stderrText]
  | cons ev evs ih =>
    have htail : ∀ ev ∈ evs, ev.isData = true := fun x hx => hdata x (List.mem_cons_of_mem _ hx)
    have hhead := hdata ev (List.mem_cons_self _ _)
    cases ev with
    | stdout d => simp [npmResult, stdoutText, stderrText, ih _ _ htail, String.append_assoc]
    | stderr d => simp [npmResult, stdoutText, stderrText, ih _ _ htail, String.append_assoc]
    | error m => simp [NpmEvent.isData] at hhead
    | close c => simp [NpmEvent.isData] at hhead

/-! ### Traces -/

theorem effectsSince_of_eq {w w' : World} {δ : List Effect} (h : w'.trace = w.trace ++ δ) :
    effectsSince w w' = δ := by
  simp [effectsSince, h]

theorem filter_eq_nil_of_forall {p : Effect → Bool} {l : List Effect}
    (h : ∀ e ∈ l, p e = false) : l.filter p = [] := by
  rw [List.filter_eq_nil_iff]
  intro e he
  simp [h e he]

/-! ### Frames -/

theorem Frame.of_eq {allowed : Effect → Bool} {w w' : World} {δ : List Effect}
    (hn : w'.nodeProcess = w.nodeProcess) (hs : w.spawned ≤ w'.spawned)
    (ha : w'.appData = w.appData) (ht : w'.trace = w.trace ++ δ)
    (hδ : ∀ e ∈ δ, allowed e = true) : Frame allowed w w' :=
  ⟨hn, hs, ha, ⟨δ, ht.symm⟩, by rw [effectsSince_of_eq ht]; exact hδ⟩

/-! ### Summaries of the two awaited steps -/

theorem npmLines_console (evs : List NpmEvent) (o e : String) :
    ∀ x ∈ npmLines evs o e, isConsole x = true := by
  induction evs generalizing o e with
  | nil => simp [npmLines]
  | cons ev evs ih =>
    cases ev with
    | stdout d =>
      intro x hx
      simp only [npmLines, List.mem_cons] at hx
      rcases hx with rfl | hx
      · rfl
      · exact ih _ _ x hx
    | stderr d =>
      intro x hx
      simp only [npmLines, List.mem_cons] at hx
      rcases hx with rfl | hx
      · rfl
      · exact ih _ _ x hx
    | error m => simp [npmLines, isConsole]
    | close c => by_cases h : c = some 0 <;> simp [npmLines, isConsole, h]

theorem dirLines_mkdir (w : World) : ∀ x ∈ dirLines w, x = .mkdir (appDataPath w) := by
  unfold dirLines
  split <;> simp

/-- What a call of `cloneOrPullRepo` changes: the directories and the trace,
by actions of the sync step only, with the calls recorded by how it settles. -/
theorem sync_summary (env : Env) (w : World) :
    ∃ r dirs δ,
      cloneOrPullRepo env w = (r, ⟨w.appData, dirs, w.nodeProcess, w.spawned, w.trace ++ δ⟩) ∧
        (∀ e ∈ δ, syncAllowed e = true) ∧ callTrace δ = syncCalls r ∧
        (r = .ok → δ.filter isErrorLine = []) := by
  have hdl : ∀ x ∈ dirLines w, syncAllowed x = true := by
    intro x hx; rw [dirLines_mkdir w x hx]; rfl
  have hdc : callTrace (dirLines w) = [] :=
    filter_eq_nil_of_forall (fun x hx => by rw [dirLines_mkdir w x hx]; rfl)
  have hde : (dirLines w).filter isErrorLine = [] :=
    filter_eq_nil_of_forall (fun x hx => by rw [dirLines_mkdir w x hx]; rfl)
  rcases sync_cases env w with ⟨m, h1, hm⟩ | ⟨hd, h2⟩ | ⟨hd, h2⟩
  · refine ⟨_, _, _, sync_eq_of_mkdir_fails env w m h1 hm, ?_, ?_, ?_⟩
    · simp [syncAllowed]
    · simp [callTrace, isCallEvent, syncCalls]
    · simp
  · rw [sync_eq_clone env w hd h2]
    unfold callTrace at hdc ⊢
    cases hg : env.git
    all_goals
      refine ⟨_, _, _, rfl, ?_, ?_, ?_⟩
      · intro e he
        simp only [List.mem_append, List.mem_cons, List.mem_singleton, List.not_mem_nil,
          or_false] at he
        rcases he with (rfl | he) | he
        · rfl
        · exact hdl e he
        · rcases he with rfl | rfl | rfl | rfl <;> rfl
      · simp [List.filter_append, hdc, isCallEvent, syncCalls]
      · simp [List.filter_append, hde, isErrorLine]
  · rw [sync_eq_pull env w hd h2]
    unfold callTrace at hdc ⊢
    cases hg : env.git
    all_goals
      refine ⟨_, _, _, rfl, ?_, ?_, ?_⟩
      · intro e he
        simp only [List.mem_append, List.mem_cons, List.mem_singleton, List.not_mem_nil,
          or_false] at he
        rcases he with (rfl | he) | he
        · rfl
        · exact hdl e he
        · rcases he with rfl | rfl | rfl | rfl <;> rfl
      · simp [List.filter_append, hdc, isCallEvent, syncCalls]
      · simp [List.filter_append, hde, isErrorLine]

theorem sync_frame (env : Env) (w : World) : Frame syncAllowed w (cloneOrPullRepo env w).2 := by
  obtain ⟨r, dirs, δ, h, ha, -, -⟩ := sync_summary env w
  rw [h]
  exact Frame.of_eq rfl (le_refl _) rfl rfl ha

theorem sync_calls (env : Env) (w : World) :
    callTrace (effectsSince w (cloneOrPullRepo env w).2) = syncCalls (cloneOrPullRepo env w).1 := by
  obtain ⟨r, dirs, δ, h, -, hc, -⟩ := sync_summary env w
  rw [h]
  simpa [effectsSince_mk] using hc

theorem sync_ok_no_error (env : Env) (w : World) (hok : (cloneOrPullRepo env w).1 = .ok) :
    (effectsSince w (cloneOrPullRepo env w).2).filter isErrorLine = [] := by
  obtain ⟨r, dirs, δ, h, -, -, he⟩ := sync_summary env w
  rw [h] at hok ⊢
  simpa [effectsSince_mk] using he hok

theorem install_result (env : Env) (w : World) :
    (installDependencies env w).1 = npmResult env.npm "" "" := by
  rw [installDependencies_eq]

theorem sequenceCalls_ordered (rs ri : Res) : OrderedCalls (sequenceCalls rs ri) := by
  cases rs <;> cases ri <;>
    simp only [sequenceCalls, syncCalls, installCalls, List.append_nil, List.cons_append,
      List.nil_append] <;> decide

/-! ### Normal forms of the functions -/

theorem startNodeProcess_eq (w : World) :
    startNodeProcess w =
      ⟨w.appData, w.dirs, some w.spawned, w.spawned + 1, w.trace ++ launchLines w⟩ := by
  cases h : w.nodeProcess <;>
    simp [startNodeProcess, emit, h, repoPath, appDataPath, launchLines]

/-- A call of `cloneOrPullRepo` reads only `%APPDATA%` and the directories. -/
theorem sync_mk (env : Env) (w : World) (n : Option Handle) (s : Nat) (t : List Effect) :
    cloneOrPullRepo env ⟨w.appData, w.dirs, n, s, t⟩ =
      (syncResult env w, ⟨w.appData, syncDirs env w, n, s, t ++ syncLines env w⟩) := by
  unfold syncResult syncDirs syncLines
  rcases sync_cases env w with ⟨m, h1, hm⟩ | ⟨hd, h2⟩ | ⟨hd, h2⟩
  · rw [sync_eq_of_mkdir_fails env w m h1 hm,
      sync_eq_of_mkdir_fails env ⟨w.appData, w.dirs, n, s, t⟩ m h1 hm]
    simp [effectsSince_mk, appDataPath]
  · rw [sync_eq_clone env w hd h2, sync_eq_clone env ⟨w.appData, w.dirs, n, s, t⟩ hd h2]
    cases env.git <;>
      simp [effectsSince_mk, appDataPath, repoPath, dirLines, dirsAfterMkdir, existsSync]
  · rw [sync_eq_pull env w hd h2, sync_eq_pull env ⟨w.appData, w.dirs, n, s, t⟩ hd h2]
    cases env.git <;>
      simp [effectsSince_mk, appDataPath, repoPath, dirLines, dirsAfterMkdir, existsSync]

theorem install_mk (env : Env) (w : World) (d : List String) (t : List Effect) :
    installDependencies env ⟨w.appData, d, w.nodeProcess, w.spawned, t⟩ =
      (npmResult env.npm "" "",
        ⟨w.appData, d, w.nodeProcess, w.spawned + 1, t ++ installLines env w⟩) := by
  rw [installDependencies_eq]
  cases h : npmResult env.npm "" "" <;>
    simp [installLines, settleLine, h, repoPath, appDataPath]

theorem startupFailed_mk (m : String) (a : String) (d : List String) (n : Option Handle)
    (s : Nat) (t : List Effect) :
    startupFailed m ⟨a, d, n, s, t⟩ = ⟨a, d, n, s, t ++ failureLines m⟩ := by
  unfold startupFailed failureLines hintLines
  split_ifs <;> simp [consoleError, emit]

/-- The startup sequence in one step. -/
theorem startup_eq (env : Env) (w : World) :
    initializeSequence env w =
      (sequenceResult env w,
        ⟨w.appData, syncDirs env w, sequenceChild env w, w.spawned + sequenceSpawns env w,
          w.trace ++ startupLines env w⟩) := by
  unfold initializeSequence
  simp only [consoleLog, emit, sync_mk]
  cases hs : syncResult env w with
  | threw m =>
    simp [startupFailed_mk, sequenceResult, sequenceChild, sequenceSpawns, startupLines,
      Launches, hs]
  | pending =>
    simp [sequenceResult, sequenceChild, sequenceSpawns, startupLines, Launches, hs]
  | ok =>
    simp only [install_mk]
    cases hi : npmResult env.npm "" "" with
    | threw m =>
      simp [startupFailed_mk, sequenceResult, sequenceChild, sequenceSpawns, startupLines,
        startupTail, Launches, hs, hi]
    | pending =>
      simp [sequenceResult, sequenceChild, sequenceSpawns, startupLines, startupTail,
        Launches, hs, hi]
    | ok =>
      simp [startNodeProcess_eq, sequenceResult, sequenceChild, sequenceSpawns, startupLines,
        startupTail, Launches, hs, hi, launchLines, afterInstall, repoPath, appDataPath]

/-- The Restart handler in one step. -/
theorem restart_eq (env : Env) (w : World) :
    restartClick env w =
      (sequenceResult env w,
        ⟨w.appData, syncDirs env w, sequenceChild env w, w.spawned + sequenceSpawns env w,
          w.trace ++ restartLines env w⟩) := by
  unfold restartClick
  have hw : w = ⟨w.appData, w.dirs, w.nodeProcess, w.spawned, w.trace⟩ := rfl
  conv_lhs => rw [hw]
  simp only [sync_mk]
  cases hs : syncResult env w with
  | threw m =>
    simp [consoleError, emit, sequenceResult, sequenceChild, sequenceSpawns, restartLines,
      Launches, hs]
  | pending =>
    simp [sequenceResult, sequenceChild, sequenceSpawns, restartLines, Launches, hs]
  | ok =>
    simp only [install_mk]
    cases hi : npmResult env.npm "" "" with
    | threw m =>
      simp [consoleError, emit, sequenceResult, sequenceChild, sequenceSpawns, restartLines,
        restartTail, Launches, hs, hi]
    | pending =>
      simp [sequenceResult, sequenceChild, sequenceSpawns, restartLines, restartTail,
        Launches, hs, hi]
    | ok =>
      simp [startNodeProcess_eq, sequenceResult, sequenceChild, sequenceSpawns, restartLines,
        restartTail, Launches, hs, hi, launchLines, afterInstall, repoPath, appDataPath]

/-! ### The calls of a sequence -/

theorem effectsSince_startup (env : Env) (w : World) :
    effectsSince w (initializeSequence env w).2 = startupLines env w := by
  rw [startup_eq, effectsSince_mk]

theorem effectsSince_restart (env : Env) (w : World) :
    effectsSince w (restartClick env w).2 = restartLines env w := by
  rw [restart_eq, effectsSince_mk]

theorem filter_npmLines (p : Effect → Bool) (evs : List NpmEvent) (o e : String)
    (hp : ∀ x, isConsole x = true → p x = false) : (npmLines evs o e).filter p = [] :=
  filter_eq_nil_of_forall (fun x hx => hp x (npmLines_console evs o e x hx))

theorem filter_hintLines (p : Effect → Bool) (m : String)
    (hp : ∀ x, isConsole x = true → p x = false) : (hintLines m).filter p = [] := by
  apply filter_eq_nil_of_forall
  intro x hx
  apply hp
  unfold hintLines at hx
  split_ifs at hx <;> simp at hx
  · subst hx; rfl
  · rcases hx with rfl | rfl <;> rfl
  · subst hx; rfl

theorem callTrace_syncLines (env : Env) (w : World) :
    callTrace (syncLines env w) = syncCalls (syncResult env w) :=
  sync_calls env w

theorem callTrace_installLines (env : Env) (w : World) :
    callTrace (installLines env w) = installCalls (npmResult env.npm "" "") := by
  unfold callTrace installLines
  have h := filter_npmLines isCallEvent env.npm "" "" (by intro x; cases x <;> simp [isConsole, isCallEvent])
  cases hr : npmResult env.npm "" "" <;>
    simp [List.filter_append, h, isCallEvent, installCalls, settleLine]

theorem callTrace_failureLines (m : String) : callTrace (failureLines m) = [] := by
  unfold callTrace failureLines
  have h := filter_hintLines isCallEvent m (by intro x; cases x <;> simp [isConsole, isCallEvent])
  simp [List.filter_append, h, isCallEvent]

theorem callTrace_launchLines (w : World) :
    callTrace (launchLines w)
      = [.call .startNodeProcess, .settled .startNodeProcess true] := by
  unfold callTrace launchLines
  cases h : w.nodeProcess <;> simp [List.filter_append, isCallEvent]

theorem callTrace_startupLines (env : Env) (w : World) :
    callTrace (startupLines env w)
      = sequenceCalls (syncResult env w) (npmResult env.npm "" "") := by
  have h₁ := callTrace_syncLines env w
  have h₂ := callTrace_installLines env w
  have h₃ := callTrace_launchLines (afterInstall w)
  have h₄ := fun m => callTrace_failureLines m
  unfold callTrace at *
  unfold startupLines startupTail
  cases hs : syncResult env w <;> cases hi : npmResult env.npm "" "" <;>
    simp [List.filter_append, h₁, h₂, h₃, h₄, hs, hi, isCallEvent, sequenceCalls, syncCalls]

theorem callTrace_restartLines (env : Env) (w : World) :
    callTrace (restartLines env w)
      = sequenceCalls (syncResult env w) (npmResult env.npm "" "") := by
  have h₁ := callTrace_syncLines env w
  have h₂ := callTrace_installLines env w
  have h₃ := callTrace_launchLines (afterInstall w)
  unfold callTrace at *
  unfold restartLines restartTail
  cases hs : syncResult env w <;> cases hi : npmResult env.npm "" "" <;>
    simp [List.filter_append, h₁, h₂, h₃, hs, hi, isCallEvent, sequenceCalls, syncCalls]

/-! ### Characters of a message -/

theorem digitChar_ne_F (n : Nat) : Nat.digitChar n ≠ 'F' := by
  rcases lt_or_le n 16 with h | h
  · interval_cases n <;> decide
  · have hstar : Nat.digitChar n = '*' := by
      unfold Nat.digitChar
      iterate 16 rw [if_neg (by omega)]
    rw [hstar]
    decide

theorem toDigitsCore_no_F (b : Nat) (fuel n : Nat) (ds : List Char) (h : 'F' ∉ ds) :
    'F' ∉ Nat.toDigitsCore b fuel n ds := by
  induction fuel generalizing n ds with
  | zero => simpa [Nat.toDigitsCore] using h
  | succ fuel ih =>
    have hd : 'F' ∉ Nat.digitChar (n % b) :: ds := by
      simp only [List.mem_cons, not_or]
      exact ⟨fun h' => digitChar_ne_F _ h'.symm, h⟩
    unfold Nat.toDigitsCore
    simp only
    split_ifs
    · exact hd
    · exact ih _ _ hd

theorem nat_repr_no_F (n : Nat) : 'F' ∉ (toString n).data := by
  show 'F' ∉ (Nat.repr n).data
  unfold Nat.repr Nat.toDigits
  simpa [List.asString] using toDigitsCore_no_F 10 (n + 1) n [] (by simp)

theorem int_repr_no_F (c : Int) : 'F' ∉ (toString c).data := by
  cases c with
  | ofNat m => exact nat_repr_no_F m
  | negSucc m =>
    show 'F' ∉ ("-" ++ toString (Nat.succ m)).data
    rw [String.data_append]
    simp only [List.mem_append, not_or]
    exact ⟨by decide, nat_repr_no_F _⟩

theorem infix_of_head_not_mem {c : Char} {p xs ys : List Char} (hc : c ∉ xs)
    (h : (c :: p) <:+: xs ++ ys) : (c :: p) <:+: ys := by
  induction xs with
  | nil => simpa using h
  | cons x xs ih =>
    have hx : c ≠ x := fun e => hc (by simp [e])
    have hxs : c ∉ xs := fun e => hc (List.mem_cons_of_mem _ e)
    apply ih hxs
    obtain ⟨s, t, hst⟩ := h
    cases s with
    | nil =>
      simp at hst
      exact absurd hst.1 hx
    | cons a s =>
      simp at hst
      exact ⟨s, t, by simpa using hst.2⟩

theorem infix_split {y : Char} {p xs ys : List Char} (hy : y ∉ p)
    (h : p <:+: xs ++ y :: ys) : p <:+: xs ∨ p <:+: ys := by
  obtain ⟨s, t, hst⟩ := h
  rw [List.append_eq_append_iff] at hst
  rcases hst with ⟨a, h1, h2⟩ | ⟨c, h1, h2⟩
  · -- xs = s ++ p ++ a
    left
    exact ⟨s, a, h1.symm⟩
  · -- s ++ p = xs ++ c, y :: ys = c ++ t
    cases c with
    | nil =>
      left
      exact ⟨s, [], by simpa using h1⟩
    | cons c0 c =>
      simp at h2
      obtain ⟨rfl, h2⟩ := h2
      rw [List.append_eq_append_iff] at h1
      rcases h1 with ⟨b, h3, h4⟩ | ⟨b, h3, h4⟩
      · -- xs = s ++ b, p = b ++ y :: c
        exact absurd (by rw [h4]; simp) hy
      · -- s = xs ++ b, y :: c = b ++ p
        cases b with
        | nil =>
          simp at h4
          exact absurd (by rw [← h4]; simp) hy
        | cons b0 b =>
          simp at h4
          right
          exact ⟨b, t, by rw [h2, h4.2]⟩

theorem ne_of_head_ne {s t : String} (h : s.data.head? ≠ t.data.head?) : s ≠ t :=
  fun e => h (by rw [e])

theorem head_append (a b : String) (x : Char) (ha : a.data.head? = some x) :
    (a ++ b).data.head? = some x := by
  rw [String.data_append]
  cases h : a.data <;> simp_all

theorem installErrorMessage_head (code : Option Int) (o e : String) :
    (installErrorMessage code o e).data.head? = some 'n' := by
  unfold installErrorMessage
  exact head_append _ _ _ (head_append _ _ _ (head_append _ _ _ (head_append _ _ _
    (head_append _ _ _ (by decide)))))

theorem installErrorMessage_includes_marker (code : Option Int) (o e : String) :
    includes (installErrorMessage code o e) "npm install failed" = true := by
  unfold installErrorMessage
  exact includes_append_left _ _ _ (includes_append_left _ _ _ (includes_append_left _ _ _
    (includes_append_left _ _ _ (includes_append_left _ _ _ (by decide)))))

/-- The message of an install failure contains the marker of a spawn failure
only if the captured output does. -/
theorem installErrorMessage_excludes (c : Int) (o e : String)
    (ho : includes o "Failed to start npm" = false)
    (he : includes e "Failed to start npm" = false) :
    includes (installErrorMessage (some c) o e) "Failed to start npm" = false := by
  rw [Bool.eq_false_iff, Ne, includes_iff] at *
  intro h
  have hdata : (installErrorMessage (some c) o e).data
      = ("npm install failed with code ".data ++ (toString c).data ++ "\nOutput: ".data)
        ++ (o.data ++ '\n' :: ("Errors: ".data ++ e.data)) := by
    simp [installErrorMessage, renderCode, String.data_append]
  rw [hdata] at h
  have hF : 'F' ∉ "npm install failed with code ".data ++ (toString c).data ++ "\nOutput: ".data := by
    simp only [List.mem_append, not_or]
    exact ⟨⟨by decide, int_repr_no_F c⟩, by decide⟩
  have h2 := infix_of_head_not_mem hF h
  rcases infix_split (by decide) h2 with h3 | h3
  · exact ho h3
  · exact he (infix_of_head_not_mem (by decide) h3)

theorem npmLines_data_append (evs rest : List NpmEvent) (o e : String)
    (hdata : ∀ ev ∈ evs, ev.isData = true) :
    npmLines (evs ++ rest) o e
      = dataLines evs ++ npmLines rest (o ++ stdoutText evs) (e ++ stderrText evs) := by
  induction evs generalizing o e with
  | nil => simp [stdoutText, stderrText, dataLines]
  | cons ev evs ih =>
    have htail : ∀ ev ∈ evs, ev.isData = true := fun x hx => hdata x (List.mem_cons_of_mem _ hx)
    have hhead := hdata ev (List.mem_cons_self _ _)
    cases ev with
    | stdout d =>
      simp [npmLines, stdoutText, stderrText, dataLines, ih _ _ htail, String.append_assoc]
    | stderr d =>
      simp [npmLines, stdoutText, stderrText, dataLines, ih _ _ htail, String.append_assoc]
    | error m => simp [NpmEvent.isData] at hhead
    | close c => simp [NpmEvent.isData] at hhead

/-- A forwarded chunk is logged with a fixed label in front. -/
theorem dataLines_mem (evs : List NpmEvent) (x : Effect) (hx : x ∈ dataLines evs) :
    (∃ d, x = .log ("npm install output: " ++ d)) ∨
      (∃ d, x = .error ("npm install error: " ++ d)) := by
  induction evs with
  | nil => simp [dataLines] at hx
  | cons ev evs ih =>
    cases ev with
    | stdout d =>
      simp only [dataLines, List.mem_cons] at hx
      rcases hx with rfl | hx
      · exact Or.inl ⟨d, rfl⟩
      · exact ih hx
    | stderr d =>
      simp only [dataLines, List.mem_cons] at hx
      rcases hx with rfl | hx
      · exact Or.inr ⟨d, rfl⟩
      · exact ih hx
    | error m => exact ih (by simpa [dataLines] using hx)
    | close c => exact ih (by simpa [dataLines] using hx)

theorem syncLines_allowed (env : Env) (w : World) :
    ∀ e ∈ syncLines env w, syncAllowed e = true :=
  (sync_frame env w).2.2.2.2

theorem syncLines_no_error (env : Env) (w : World) (hok : syncResult env w = .ok)
    (line : String) : Effect.error line ∉ syncLines env w := by
  intro h
  have := sync_ok_no_error env w hok
  rw [List.filter_eq_nil_iff] at this
  exact this _ h rfl

theorem dataLines_console (evs : List NpmEvent) : ∀ x ∈ dataLines evs, isConsole x = true := by
  intro x hx
  rcases dataLines_mem evs x hx with ⟨d, rfl⟩ | ⟨d, rfl⟩ <;> rfl

theorem dataLines_error_head (evs : List NpmEvent) (s : String)
    (hs : Effect.error s ∈ dataLines evs) : s.data.head? = some 'n' := by
  rcases dataLines_mem evs _ hs with ⟨d, hd⟩ | ⟨d, hd⟩
  · cases hd
  · cases hd
    exact head_append _ _ _ (by decide)

theorem syncLines_not_mem (env : Env) (w : World) (e : Effect) (he : syncAllowed e = false) :
    e ∉ syncLines env w := by
  intro h
  rw [syncLines_allowed env w e h] at he
  cases he

theorem filter_syncLines (p : Effect → Bool) (env : Env) (w : World)
    (hp : ∀ e, syncAllowed e = true → p e = false) : (syncLines env w).filter p = [] :=
  filter_eq_nil_of_forall (fun e he => hp e (syncLines_allowed env w e he))

theorem filter_dataLines (p : Effect → Bool) (evs : List NpmEvent)
    (hp : ∀ x, isConsole x = true → p x = false) : (dataLines evs).filter p = [] :=
  filter_eq_nil_of_forall (fun x hx => hp x (dataLines_console evs x hx))

theorem dataLines_not_mem (evs : List NpmEvent) (e : Effect) (he : isConsole e = false) :
    e ∉ dataLines evs := by
  intro h
  rw [dataLines_console evs e h] at he
  cases he

/-! ### A sequence that fails before the launch -/

theorem installLines_allowed (env : Env) (w : World) :
    ∀ e ∈ installLines env w, installAllowed e = true := by
  intro x hx
  unfold installLines at hx
  simp only [List.mem_append, List.mem_cons, List.mem_singleton, List.not_mem_nil,
    or_false] at hx
  rcases hx with ((rfl | rfl | rfl) | hx) | hx
  · rfl
  · rfl
  · rfl
  · have := npmLines_console env.npm "" "" x hx
    cases x <;> simp_all [isConsole, installAllowed]
  · cases hr : npmResult env.npm "" "" <;> rw [hr] at hx <;> simp [settleLine] at hx <;>
      subst hx <;> rfl

/-- A Restart that fails performs only actions of the sync and install steps. -/
theorem restartLines_quiet (env : Env) (w : World) (hfail : ¬ Launches env w) :
    ∀ e ∈ restartLines env w, quietAllowed e = true := by
  intro e he
  have hsync := syncLines_allowed env w
  have hinst := installLines_allowed env w
  unfold quietAllowed
  rw [Bool.or_eq_true]
  unfold restartLines restartTail at he
  cases hs : syncResult env w with
  | threw m =>
    simp only [hs, List.mem_append, List.mem_singleton] at he
    rcases he with he | he
    · exact Or.inl (hsync e he)
    · subst he; exact Or.inl rfl
  | pending =>
    simp only [hs, List.mem_append, List.append_nil] at he
    exact Or.inl (hsync e he)
  | ok =>
    cases hi : npmResult env.npm "" "" with
    | threw m =>
      simp only [hs, hi, List.mem_append, List.mem_singleton] at he
      rcases he with he | he | he
      · exact Or.inl (hsync e he)
      · exact Or.inr (hinst e he)
      · subst he; exact Or.inl rfl
    | pending =>
      simp only [hs, hi, List.mem_append, List.append_nil] at he
      rcases he with he | he
      · exact Or.inl (hsync e he)
      · exact Or.inr (hinst e he)
    | ok => exact absurd ⟨hs, hi⟩ hfail

/-! ### The invariant of the child-process variable -/

theorem storedHandles_append (a b : List Effect) :
    storedHandles (a ++ b) = storedHandles a ++ storedHandles b := by
  simp [storedHandles, List.filterMap_append]

theorem storedHandles_eq_nil {l : List Effect} (h : ∀ e ∈ l, isNodeSpawn e = false) :
    storedHandles l = [] := by
  unfold storedHandles
  rw [List.filterMap_eq_nil_iff]
  intro e he
  have := h e he
  cases e <;> simp_all [storedHandle, isNodeSpawn]

theorem ChildInvariant.initial (appData : String) (dirs : List String) :
    ChildInvariant (initialWorld appData dirs) := by
  simp [ChildInvariant, initialWorld, storedHandles, AtMostOneLive]

/-- A transition that spawns no supervised process and keeps the variable
preserves the invariant. -/
theorem ChildInvariant.quiet {w w' : World} {δ : List Effect} (hinv : ChildInvariant w)
    (hn : w'.nodeProcess = w.nodeProcess) (hs : w.spawned ≤ w'.spawned)
    (ht : w'.trace = w.trace ++ δ) (hδ : storedHandles δ = []) : ChildInvariant w' := by
  obtain ⟨hlt, hnd, hlast, hlive⟩ := hinv
  have hst : storedHandles w'.trace = storedHandles w.trace := by
    rw [ht, storedHandles_append, hδ, List.append_nil]
  refine ⟨?_, ?_, ?_, ?_⟩
  · intro h hh
    rw [hst] at hh
    exact lt_of_lt_of_le (hlt h hh) hs
  · rw [hst]; exact hnd
  · rw [hst, hn]; exact hlast
  · intro h hh hne
    rw [hst] at hh
    rw [hn] at hne
    rw [ht]
    exact List.mem_append_left _ (hlive h hh hne)

/-- A transition that signals the held child, spawns a fresh one and stores
it preserves the invariant. -/
theorem ChildInvariant.launch {w w' : World} {δ : List Effect} {k : Handle}
    (hinv : ChildInvariant w) (hnew : w'.nodeProcess = some k) (hge : w.spawned ≤ k)
    (hlt' : k < w'.spawned) (ht : w'.trace = w.trace ++ δ) (hδ : storedHandles δ = [k])
    (hkill : ∀ h₀, w.nodeProcess = some h₀ → Effect.kill h₀ ∈ δ) : ChildInvariant w' := by
  obtain ⟨hlt, hnd, hlast, hlive⟩ := hinv
  have hst : storedHandles w'.trace = storedHandles w.trace ++ [k] := by
    rw [ht, storedHandles_append, hδ]
  refine ⟨?_, ?_, ?_, ?_⟩
  · intro h hh
    rw [hst, List.mem_append, List.mem_singleton] at hh
    rcases hh with hh | rfl
    · exact lt_trans (lt_of_lt_of_le (hlt h hh) hge) hlt'
    · exact hlt'
  · rw [hst]
    refine List.Nodup.append hnd (List.nodup_singleton _) ?_
    intro h hh hh'
    rw [List.mem_singleton] at hh'
    subst hh'
    exact absurd (hlt h hh) (not_lt.mpr hge)
  · rw [hst, hnew]; simp
  · intro h hh hne
    rw [hst, List.mem_append, List.mem_singleton] at hh
    rw [hnew] at hne
    rcases hh with hh | rfl
    · rw [ht]
      by_cases hcur : w.nodeProcess = some h
      · exact List.mem_append_right _ (hkill h hcur)
      · exact List.mem_append_left _ (hlive h hh hcur)
    · exact absurd rfl hne

theorem storedHandles_syncLines (env : Env) (w : World) : storedHandles (syncLines env w) = [] :=
  storedHandles_eq_nil (fun e he => by
    have := syncLines_allowed env w e he
    cases e <;> simp_all [syncAllowed, isNodeSpawn])

theorem storedHandles_installLines (env : Env) (w : World) :
    storedHandles (installLines env w) = [] :=
  storedHandles_eq_nil (fun e he => by
    have := installLines_allowed env w e he
    cases e <;> simp_all [installAllowed, isNodeSpawn])

theorem storedHandles_failureLines (m : String) : storedHandles (failureLines m) = [] :=
  storedHandles_eq_nil (fun e he => by
    unfold failureLines hintLines at he
    split_ifs at he <;> simp at he <;> rcases he with rfl | he <;>
      first
        | rfl
        | (subst he; rfl)
        | (rcases he with rfl | rfl | rfl <;> rfl))

theorem storedHandles_launchLines (w : World) : storedHandles (launchLines w) = [w.spawned] := by
  unfold launchLines
  cases h : w.nodeProcess <;> simp [storedHandles, storedHandle]

theorem kill_mem_launchLines (w : World) (h : Handle) (hh : w.nodeProcess = some h) :
    Effect.kill h ∈ launchLines w := by
  simp [launchLines, hh]

theorem storedHandles_startupLines (env : Env) (w : World) :
    storedHandles (startupLines env w) = if Launches env w then [w.spawned + 1] else [] := by
  unfold startupLines startupTail
  split_ifs with hl
  · simp only [hl.1, hl.2, storedHandles_append, storedHandles_syncLines,
      storedHandles_installLines, storedHandles_launchLines, afterInstall]
    simp [storedHandles, storedHandle]
  · unfold Launches at hl
    cases hs : syncResult env w <;> cases hi : npmResult env.npm "" "" <;>
      simp only [hs, hi, storedHandles_append, storedHandles_syncLines,
        storedHandles_installLines, storedHandles_failureLines, and_self, not_true_eq_false]
        at hl ⊢ <;>
      simp [storedHandles, storedHandle]

theorem storedHandles_restartLines (env : Env) (w : World) :
    storedHandles (restartLines env w) = if Launches env w then [w.spawned + 1] else [] := by
  unfold restartLines restartTail
  split_ifs with hl
  · simp only [hl.1, hl.2, storedHandles_append, storedHandles_syncLines,
      storedHandles_installLines, storedHandles_launchLines, afterInstall]
    simp [storedHandles, storedHandle]
  · unfold Launches at hl
    cases hs : syncResult env w <;> cases hi : npmResult env.npm "" "" <;>
      simp only [hs, hi, storedHandles_append, storedHandles_syncLines,
        storedHandles_installLines, and_self, not_true_eq_false] at hl ⊢ <;>
      simp [storedHandles, storedHandle]

theorem kill_mem_startupLines (env : Env) (w : World) (hl : Launches env w) (h : Handle)
    (hh : w.nodeProcess = some h) : Effect.kill h ∈ startupLines env w := by
  have := kill_mem_launchLines (afterInstall w) h hh
  unfold startupLines startupTail
  simp [hl.1, hl.2, this]

theorem kill_mem_restartLines (env : Env) (w : World) (hl : Launches env w) (h : Handle)
    (hh : w.nodeProcess = some h) : Effect.kill h ∈ restartLines env w := by
  have := kill_mem_launchLines (afterInstall w) h hh
  unfold restartLines restartTail
  simp [hl.1, hl.2, this]

/-- Both sequences preserve the invariant: they either leave the child alone
or replace it through `startNodeProcess`. -/
theorem ChildInvariant.sequence {env : Env} {w : World} {lines : List Effect}
    (hinv : ChildInvariant w)
    (hst : storedHandles lines = if Launches env w then [w.spawned + 1] else [])
    (hkill : Launches env w → ∀ h, w.nodeProcess = some h → Effect.kill h ∈ lines) :
    ChildInvariant ⟨w.appData, syncDirs env w, sequenceChild env w,
      w.spawned + sequenceSpawns env w, w.trace ++ lines⟩ := by
  by_cases hl : Launches env w
  · rw [if_pos hl] at hst
    refine ChildInvariant.launch hinv (k := w.spawned + 1) ?_ (Nat.le_succ _) ?_ rfl hst
      (hkill hl)
    · simp [sequenceChild, hl]
    · simp [sequenceSpawns, hl.1, hl.2]
  · rw [if_neg hl] at hst
    refine ChildInvariant.quiet hinv ?_ (Nat.le_add_right _ _) rfl hst
    simp [sequenceChild, hl]

theorem childInvariant_step {w : World} (hinv : ChildInvariant w) (i : Input) :
    ChildInvariant (step w i) := by
  cases i with
  | startup env =>
    simp only [step, startup_eq]
    exact hinv.sequence (storedHandles_startupLines env w)
      (fun hl => kill_mem_startupLines env w hl)
  | restart env =>
    simp only [step, restart_eq]
    exact hinv.sequence (storedHandles_restartLines env w)
      (fun hl => kill_mem_restartLines env w hl)
  | exit =>
    simp only [step, exitClick]
    cases h : w.nodeProcess with
    | none => exact hinv.quiet (δ := [.quit]) rfl (le_refl _) rfl rfl
    | some h₀ => exact hinv.quiet (δ := [.kill h₀, .quit]) rfl (le_refl _) (by simp [emit]) rfl
  | beforeQuit =>
    simp only [step, beforeQuit]
    cases h : w.nodeProcess with
    | none => exact hinv
    | some h₀ => exact hinv.quiet (δ := [.kill h₀]) rfl (le_refl _) rfl rfl
  | windowAllClosed p =>
    simp only [step, windowAllClosed]
    split_ifs
    · exact hinv.quiet (δ := [.quit]) rfl (le_refl _) rfl rfl
    · exact hinv
  | childStdout d => exact hinv.quiet (δ := [.log ("stdout: " ++ d)]) rfl (le_refl _) rfl rfl
  | childStderr d => exact hinv.quiet (δ := [.error ("stderr: " ++ d)]) rfl (le_refl _) rfl rfl
  | childClose c =>
    exact hinv.quiet (δ := [.log ("Child process exited with code " ++ renderCode c)]) rfl
      (le_refl _) rfl rfl

theorem childInvariant_run (w : World) (hinv : ChildInvariant w) (inputs : List Input) :
    ChildInvariant (inputs.foldl step w) := by
  induction inputs generalizing w with
  | nil => exact hinv
  | cons i inputs ih => exact ih _ (childInvariant_step hinv i)

/-- Every reachable state satisfies the invariant. -/
theorem childInvariant_of_reachable {w : World} (hr : Reachable w) : ChildInvariant w := by
  obtain ⟨appData, dirs, inputs, rfl⟩ := hr
  exact childInvariant_run _ (ChildInvariant.initial appData dirs) inputs

/-! ### The error log of the install step -/

theorem filter_error_dataLines (evs : List NpmEvent) :
    (dataLines evs).filter isErrorLine = stderrLines evs := by
  induction evs with
  | nil => rfl
  | cons ev evs ih => cases ev <;> simp [dataLines, stderrLines, isErrorLine, ih]

/-! ## Order of the steps of a sequence -/

/-- C1: in the startup sequence and in the Restart handler alike, whatever the
external steps answer, the trace of calls is ordered: `installDependencies` is
called only after `cloneOrPullRepo` has settled successfully,
`startNodeProcess` only after `installDependencies` has settled successfully,
and no function is called after one has failed. The trace of calls is the one
determined by how the sync and the install settle. -/
theorem sequence_calls_ordered (env : Env) (w : World) :
    callTrace (effectsSince w (initializeSequence env w).2)
        = sequenceCalls (cloneOrPullRepo env w).1
            (installDependencies env (cloneOrPullRepo env w).2).1 ∧
      callTrace (effectsSince w (restartClick env w).2)
        = sequenceCalls (cloneOrPullRepo env w).1
            (installDependencies env (cloneOrPullRepo env w).2).1 ∧
      OrderedCalls (callTrace (effectsSince w (initializeSequence env w).2)) ∧
      OrderedCalls (callTrace (effectsSince w (restartClick env w).2)) := by
  rw [effectsSince_startup, effectsSince_restart, callTrace_startupLines,
    callTrace_restartLines, install_result]
  exact ⟨rfl, rfl, sequenceCalls_ordered _ _, sequenceCalls_ordered _ _⟩

/-! ## Repository sync -/

theorem filter_dirLines (p : Effect → Bool) (w : World) (hp : ∀ s, p (.mkdir s) = false) :
    (dirLines w).filter p = [] := by
  unfold dirLines
  split <;> simp [hp]

/-- C2 (amended): when the directory step does not throw (the application
directory exists already or its creation succeeds), a call of `cloneOrPullRepo`
with the working copy absent attempts exactly one clone, of the fixed remote
into `repoPath`, and no pull, and the working copy exists afterwards if that
clone is fulfilled; with the working copy present it attempts exactly one pull,
in `repoPath`, and no clone. -/
theorem sync_attempts_once (env : Env) (w : World) (hd : MkdirPasses env w) :
    SyncAttemptsOnce env w := by
  constructor
  · intro h2
    rw [sync_eq_clone env w hd h2]
    cases hg : env.git <;>
      simp [effectsSince_mk, List.filter_append, filter_dirLines, isClone, isPull, existsSync]
  · intro h2
    rw [sync_eq_pull env w hd h2]
    cases hg : env.git <;>
      simp [effectsSince_mk, List.filter_append, filter_dirLines, isClone, isPull]

/-- Witness of `sync_attempts_once`: the first run, where nothing exists yet
and the clone is fulfilled. -/
theorem sync_attempts_once_witness :
    MkdirPasses { mkdir := none, git := .fulfilled, npm := [] } freshWorld ∧
      SyncAttemptsOnce { mkdir := none, git := .fulfilled, npm := [] } freshWorld :=
  ⟨by decide, sync_attempts_once _ _ (by decide)⟩

/-- C2 as stated fails: when the application directory is missing and
`fs.mkdirSync` throws, the working copy is absent and no clone is attempted. -/
theorem sync_attempts_nothing_when_mkdir_throws :
    ¬ SyncAttemptsOnce
        { mkdir := some "EACCES: permission denied", git := .fulfilled, npm := [] }
        freshWorld := by
  unfold SyncAttemptsOnce
  decide

/-! ## Dependency installer -/

/-- C5: when the npm process delivers any sequence of stdout and stderr chunks
and then closes with code `c`, `installDependencies` rejects for `c ≠ 0` with
the message built from the code and both accumulators, which contains the
decimal rendering of `c`, the concatenation of all stdout chunks and the
concatenation of all stderr chunks, in arrival order; for `c = 0` it
resolves. -/
theorem install_settles_by_exit_code (evs : List NpmEvent) (c : Int) (env : Env) (w : World)
    (hdata : ∀ ev ∈ evs, ev.isData = true) (hnpm : env.npm = evs ++ [.close (some c)]) :
    (c ≠ 0 →
      (installDependencies env w).1
          = .threw (installErrorMessage (some c) (stdoutText evs) (stderrText evs)) ∧
        includes (installErrorMessage (some c) (stdoutText evs) (stderrText evs))
          (toString c) = true ∧
        includes (installErrorMessage (some c) (stdoutText evs) (stderrText evs))
          (stdoutText evs) = true ∧
        includes (installErrorMessage (some c) (stdoutText evs) (stderrText evs))
          (stderrText evs) = true) ∧
    (c = 0 → (installDependencies env w).1 = .ok) := by
  have hres : (installDependencies env w).1
      = npmResult [.close (some c)] (stdoutText evs) (stderrText evs) := by
    rw [installDependencies_eq, hnpm, npmResult_data_append evs _ _ _ hdata]
    simp
  refine ⟨fun hc => ⟨?_, ?_, ?_, ?_⟩, fun hc => ?_⟩
  · rw [hres]; simp [npmResult, hc]
  · unfold installErrorMessage renderCode
    exact includes_append_left _ _ _ (includes_append_left _ _ _ (includes_append_left _ _ _
      (includes_append_left _ _ _ (includes_append_right _ _ _ (includes_refl _)))))
  · unfold installErrorMessage
    exact includes_append_left _ _ _ (includes_append_left _ _ _
      (includes_append_right _ _ _ (includes_refl _)))
  · unfold installErrorMessage
    exact includes_append_right _ _ _ (includes_refl _)
  · rw [hres]; simp [npmResult, hc]

/-- Witness of `install_settles_by_exit_code`: two chunks, then exit code 1. -/
theorem install_settles_by_exit_code_witness :
    (installDependencies
        { mkdir := none, git := .fulfilled,
          npm := [.stdout "added 1 package", .stderr "npm ERR! code E404", .close (some 1)] }
        freshWorld).1
      = .threw "npm install failed with code 1\nOutput: added 1 package\nErrors: npm ERR! code E404" := by
  have h := (install_settles_by_exit_code
    [.stdout "added 1 package", .stderr "npm ERR! code E404"] 1
    { mkdir := none, git := .fulfilled,
      npm := [.stdout "added 1 package", .stderr "npm ERR! code E404", .close (some 1)] }
    freshWorld (by decide) (by decide)).1 (by decide)
  rw [h.1]
  decide

/-! ## Failures of the startup sequence -/

/-- C3 (evaluation at the failing input): the working copy is absent and the
clone fails with the message `connect ETIMEDOUT`. The startup sequence calls
neither `installDependencies` nor `startNodeProcess` and quits, but its error
log holds only the two lines that repeat the message: the sync hint is not
logged, because the wrapped message `Git operation failed: connect ETIMEDOUT`
does not contain the lower-case marker `git` the `catch` block looks for. -/
theorem startup_sync_failure_without_hint :
    (effectsSince freshWorld (initializeSequence
        { mkdir := none, git := .rejected "connect ETIMEDOUT", npm := [] } freshWorld).2).filter
          isErrorLine
        = [.error "Git operation failed: connect ETIMEDOUT",
            .error "Initialization failed: Error: Git operation failed: connect ETIMEDOUT"] ∧
      Effect.error syncHint ∉ effectsSince freshWorld (initializeSequence
        { mkdir := none, git := .rejected "connect ETIMEDOUT", npm := [] } freshWorld).2 ∧
      callTrace (effectsSince freshWorld (initializeSequence
        { mkdir := none, git := .rejected "connect ETIMEDOUT", npm := [] } freshWorld).2)
        = [.call .cloneOrPullRepo, .settled .cloneOrPullRepo false] ∧
      Effect.quit ∈ effectsSince freshWorld (initializeSequence
        { mkdir := none, git := .rejected "connect ETIMEDOUT", npm := [] } freshWorld).2 := by
  decide

/-- Extent of the defect evaluated in `startup_misreports_install_failure`:
the `catch` block of the startup sequence gives an install failure the install
hint whenever the text npm printed does not itself contain the spawn marker
`Failed to start npm`. In that case the sequence ends with the install error,
whose message contains the code, logs the install hint and neither of the
other two, starts no supervised process, and calls `app.quit`. This describes
where the classifier works; it does not restate C4, which asks for the install
hint whatever npm printed. -/
theorem install_failure_reported_without_marker (env : Env) (w : World) (evs : List NpmEvent)
    (c : Int) (hsync : (cloneOrPullRepo env w).1 = .ok)
    (hdata : ∀ ev ∈ evs, ev.isData = true) (hnpm : env.npm = evs ++ [.close (some c)])
    (hc : c ≠ 0) (hout : includes (stdoutText evs) "Failed to start npm" = false)
    (herr : includes (stderrText evs) "Failed to start npm" = false) :
    InstallFailureReported env w evs c := by
  have hs : syncResult env w = .ok := hsync
  have hi : npmResult env.npm "" ""
      = .threw (installErrorMessage (some c) (stdoutText evs) (stderrText evs)) := by
    rw [hnpm, npmResult_data_append _ _ _ _ hdata]
    simp [npmResult, hc]
  have hl : npmLines env.npm "" "" = dataLines evs ++
      [.error (installErrorMessage (some c) (stdoutText evs) (stderrText evs))] := by
    rw [hnpm, npmLines_data_append _ _ _ _ hdata]
    simp [npmLines, hc]
  have hh : hintLines (installErrorMessage (some c) (stdoutText evs) (stderrText evs))
      = [.error installHint, .error installSolutions] := by
    unfold hintLines
    rw [if_neg (by rw [installErrorMessage_excludes c _ _ hout herr]; simp),
      if_pos (installErrorMessage_includes_marker _ _ _)]
  have hδ : startupLines env w
      = [.log "Starting initialization...", .log "Cloning or pulling repository..."] ++
        syncLines env w ++
        ([.log "Installing dependencies...", .call .installDependencies,
            .log "Starting npm install...",
            .spawn w.spawned "npm" ["install"] (repoPath w) true] ++ dataLines evs ++
          [.error (installErrorMessage (some c) (stdoutText evs) (stderrText evs)),
            .settled .installDependencies false,
            .error ("Initialization failed: Error: " ++
              installErrorMessage (some c) (stdoutText evs) (stderrText evs)),
            .error installHint, .error installSolutions, .quit]) := by
    simp [startupLines, startupTail, installLines, failureLines, hs, hi, hl, hh, settleLine]
  have hchild : (initializeSequence env w).2.nodeProcess = w.nodeProcess := by
    rw [startup_eq]
    simp [sequenceChild, Launches, hi]
  unfold InstallFailureReported
  rw [effectsSince_startup, hδ]
  refine ⟨?_, ?_, ?_, ?_, ?_, ?_, ?_, hchild, ?_⟩
  · unfold installErrorMessage renderCode
    exact includes_append_left _ _ _ (includes_append_left _ _ _ (includes_append_left _ _ _
      (includes_append_left _ _ _ (includes_append_right _ _ _ (includes_refl _)))))
  · simp
  · simp
  · simp
    refine ⟨syncLines_no_error env w hs _, fun h => ?_, ?_, ?_, by decide, by decide⟩
    · have := dataLines_error_head evs _ h
      revert this
      decide
    · exact ne_of_head_ne (by rw [installErrorMessage_head]; decide)
    · exact ne_of_head_ne (by rw [head_append _ _ 'I' (by decide)]; decide)
  · simp
    refine ⟨syncLines_no_error env w hs _, fun h => ?_, ?_, ?_, by decide, by decide⟩
    · have := dataLines_error_head evs _ h
      revert this
      decide
    · exact ne_of_head_ne (by rw [installErrorMessage_head]; decide)
    · exact ne_of_head_ne (by rw [head_append _ _ 'I' (by decide)]; decide)
  · have h₁ := filter_syncLines isNodeSpawn env w
      (by intro e; cases e <;> simp [syncAllowed, isNodeSpawn])
    have h₂ := filter_dataLines isNodeSpawn evs
      (by intro e; cases e <;> simp [isConsole, isNodeSpawn])
    simp [List.filter_append, h₁, h₂, isNodeSpawn]
  · have h₁ := syncLines_not_mem env w (.call .startNodeProcess) rfl
    have h₂ := dataLines_not_mem evs (.call .startNodeProcess) rfl
    simp [h₁, h₂]
  · simp


/-- An instance of `install_failure_reported_without_marker`: the working copy
is present, the pull succeeds, and `npm install` exits with code 1 after
ordinary output. -/
theorem install_failure_reported_without_marker_example :
    InstallFailureReported
      { mkdir := none, git := .fulfilled,
        npm := [.stdout "added 1 package", .stderr "npm ERR! code E404", .close (some 1)] }
      syncedWorld [.stdout "added 1 package", .stderr "npm ERR! code E404"] 1 :=
  install_failure_reported_without_marker _ _ _ _ (by decide) (by decide) (by decide) (by decide)
    (by decide) (by decide)

/-- C4 (evaluation at the failing input): the working copy is present, the
pull succeeds, and `npm install` prints `Failed to start npm` on its standard
output and exits with code 1. `installDependencies` rejects with the install
error, whose message carries the wrapper `npm install failed`, the code and the
output; the `catch` block of the startup sequence tests for the spawn marker
first, finds it in the embedded output, and logs the spawn hint: the install
hint is not logged, so C4 fails here. No supervised process is started and
`app.quit` is called, as C4 says. -/
theorem startup_misreports_install_failure :
    (cloneOrPullRepo
        { mkdir := none, git := .fulfilled,
          npm := [.stdout "Failed to start npm", .close (some 1)] } syncedWorld).1 = .ok ∧
      (installDependencies
        { mkdir := none, git := .fulfilled,
          npm := [.stdout "Failed to start npm", .close (some 1)] } syncedWorld).1
        = .threw "npm install failed with code 1\nOutput: Failed to start npm\nErrors: " ∧
      (effectsSince syncedWorld (initializeSequence
        { mkdir := none, git := .fulfilled,
          npm := [.stdout "Failed to start npm", .close (some 1)] } syncedWorld).2).filter
          isErrorLine
        = [.error "npm install failed with code 1\nOutput: Failed to start npm\nErrors: ",
            .error ("Initialization failed: Error: " ++
              "npm install failed with code 1\nOutput: Failed to start npm\nErrors: "),
            .error spawnHint] ∧
      Effect.error installHint ∉ effectsSince syncedWorld (initializeSequence
        { mkdir := none, git := .fulfilled,
          npm := [.stdout "Failed to start npm", .close (some 1)] } syncedWorld).2 ∧
      (effectsSince syncedWorld (initializeSequence
        { mkdir := none, git := .fulfilled,
          npm := [.stdout "Failed to start npm", .close (some 1)] } syncedWorld).2).filter
          isNodeSpawn = [] ∧
      Effect.quit ∈ effectsSince syncedWorld (initializeSequence
        { mkdir := none, git := .fulfilled,
          npm := [.stdout "Failed to start npm", .close (some 1)] } syncedWorld).2 ∧
      ¬ InstallFailureReported
        { mkdir := none, git := .fulfilled,
          npm := [.stdout "Failed to start npm", .close (some 1)] }
        syncedWorld [.stdout "Failed to start npm"] 1 :=
  ⟨by decide, by decide, by decide, by decide, by decide, by decide,
    fun h => h.2.2.2.1 (by decide)⟩

/-! ## The Restart handler -/

/-- C7: when the sequence of a Restart fails, because the sync throws or
because the install rejects, with message `m`, the handler logs the error,
does not rethrow, does not call `app.quit`, and leaves the held child as it
was: the variable `nodeProcess` is unchanged, no termination signal is sent,
and no supervised process is spawned. -/
theorem restart_failure_is_contained (env : Env) (w : World) (m : String)
    (hfail : (cloneOrPullRepo env w).1 = .threw m ∨
      ((cloneOrPullRepo env w).1 = .ok ∧
        (installDependencies env (cloneOrPullRepo env w).2).1 = .threw m)) :
    (restartClick env w).1 = .ok ∧
      Effect.error ("Failed to restart process: Error: " ++ m)
        ∈ effectsSince w (restartClick env w).2 ∧
      Effect.quit ∉ effectsSince w (restartClick env w).2 ∧
      (restartClick env w).2.nodeProcess = w.nodeProcess ∧
      (effectsSince w (restartClick env w).2).filter isKill = [] ∧
      (effectsSince w (restartClick env w).2).filter isNodeSpawn = [] := by
  rw [install_result] at hfail
  have hnl : ¬ Launches env w := by
    unfold Launches syncResult
    rcases hfail with h | ⟨_, h⟩ <;> simp [h]
  have hquiet := restartLines_quiet env w hnl
  rw [effectsSince_restart, restart_eq]
  refine ⟨?_, ?_, ?_, ?_, ?_, ?_⟩
  · unfold sequenceResult syncResult
    rcases hfail with h | ⟨h₁, h₂⟩
    · simp [h]
    · simp [h₁, h₂]
  · unfold restartLines restartTail syncResult
    rcases hfail with h | ⟨h₁, h₂⟩
    · simp [h]
    · simp [h₁, h₂]
  · intro h
    have := hquiet _ h
    simp [quietAllowed, syncAllowed, installAllowed] at this
  · simp [sequenceChild, hnl]
  · apply filter_eq_nil_of_forall
    intro e he
    have := hquiet e he
    cases e <;> simp_all [quietAllowed, syncAllowed, installAllowed, isKill]
  · apply filter_eq_nil_of_forall
    intro e he
    have := hquiet e he
    cases e <;> simp_all [quietAllowed, syncAllowed, installAllowed, isNodeSpawn]


/-- Witness of `restart_failure_is_contained`: a Restart while the child `0`
is held, with a pull that fails. -/
theorem restart_failure_is_contained_witness :
    (restartClick { mkdir := none, git := .rejected "could not resolve host", npm := [] }
        runningWorld).2.nodeProcess = some 0 :=
  (restart_failure_is_contained
    { mkdir := none, git := .rejected "could not resolve host", npm := [] } runningWorld
    "Git operation failed: could not resolve host" (Or.inl (by decide))).2.2.2.1

/-- C6 (amended): when Restart is selected while a child `h` is held and the
sequence fails at the install step (the sync succeeds, npm closes with a code
other than 0), then at the end of the handler the old child has not been sent
a termination signal and is still the held one, no supervised process has been
spawned, and `app.quit` has not been called. -/
theorem restart_install_failure_keeps_child (env : Env) (w : World) (h : Handle)
    (evs : List NpmEvent) (c : Int) (hheld : w.nodeProcess = some h)
    (hsync : (cloneOrPullRepo env w).1 = .ok) (hdata : ∀ ev ∈ evs, ev.isData = true)
    (hnpm : env.npm = evs ++ [.close (some c)]) (hc : c ≠ 0) :
    callTrace (effectsSince w (restartClick env w).2)
        = [.call .cloneOrPullRepo, .settled .cloneOrPullRepo true,
            .call .installDependencies, .settled .installDependencies false] ∧
      Effect.kill h ∉ effectsSince w (restartClick env w).2 ∧
      (restartClick env w).2.nodeProcess = some h ∧
      (effectsSince w (restartClick env w).2).filter isNodeSpawn = [] ∧
      Effect.quit ∉ effectsSince w (restartClick env w).2 := by
  have hs : syncResult env w = .ok := hsync
  have hi : npmResult env.npm "" ""
      = .threw (installErrorMessage (some c) (stdoutText evs) (stderrText evs)) := by
    rw [hnpm, npmResult_data_append _ _ _ _ hdata]
    simp [npmResult, hc]
  have hnl : ¬ Launches env w := by
    unfold Launches
    simp [hi]
  have hquiet := restartLines_quiet env w hnl
  rw [effectsSince_restart, restart_eq]
  refine ⟨?_, ?_, ?_, ?_, ?_⟩
  · rw [callTrace_restartLines, hs, hi]
    rfl
  · intro hk
    have := hquiet _ hk
    simp [quietAllowed, syncAllowed, installAllowed] at this
  · simp [sequenceChild, hnl, hheld]
  · apply filter_eq_nil_of_forall
    intro e he
    have := hquiet e he
    cases e <;> simp_all [quietAllowed, syncAllowed, installAllowed, isNodeSpawn]
  · intro hk
    have := hquiet _ hk
    simp [quietAllowed, syncAllowed, installAllowed] at this

/-- Witness of `restart_install_failure_keeps_child`: the child `0` is held,
the pull succeeds and `npm install` exits with code 1. -/
theorem restart_install_failure_keeps_child_witness :
    Effect.kill 0 ∉ effectsSince runningWorld (restartClick
        { mkdir := none, git := .fulfilled, npm := [.stderr "npm ERR!", .close (some 1)] }
        runningWorld).2 :=
  (restart_install_failure_keeps_child
    { mkdir := none, git := .fulfilled, npm := [.stderr "npm ERR!", .close (some 1)] }
    runningWorld 0 [.stderr "npm ERR!"] 1 (by decide) (by decide) (by decide) (by decide)
    (by decide)).2.1

/-- C6 as stated fails: the child `0` is held, the pull succeeds and
`npm install` exits with code 1; the handler ends without a termination signal
to the old child. -/
theorem restart_install_failure_sends_no_signal :
    runningWorld.nodeProcess = some 0 ∧
      (cloneOrPullRepo
        { mkdir := none, git := .fulfilled, npm := [.stderr "npm ERR!", .close (some 1)] }
        runningWorld).1 = .ok ∧
      ¬ OldChildKilledNoneStarted
        { mkdir := none, git := .fulfilled, npm := [.stderr "npm ERR!", .close (some 1)] }
        runningWorld 0 :=
  ⟨by decide, by decide, fun h => absurd h.1 (by decide)⟩

/-! ## The supervised process -/

/-- C8: whenever a child `h` is held, `startNodeProcess` sends `h` a
termination signal, then spawns the new process, and in every case the handle
it stores is the newly spawned one; so in every reachable state, of all
handles ever stored in `nodeProcess` only the one currently held may lack a
termination signal: the stored handles are pairwise distinct, the one spawned
next was never stored before, and the property holds again after
`startNodeProcess`. -/
theorem at_most_one_live_child (w : World) :
    (∀ h, w.nodeProcess = some h →
        effectsSince w (startNodeProcess w)
          = [.call .startNodeProcess, .kill h,
              .spawn w.spawned "node" ["src/index.js"] (repoPath w) false,
              .settled .startNodeProcess true]) ∧
      (startNodeProcess w).nodeProcess = some w.spawned ∧
      storedHandles (startNodeProcess w).trace = storedHandles w.trace ++ [w.spawned] ∧
      (Reachable w →
        AtMostOneLive w ∧ (storedHandles w.trace).Nodup ∧
          w.spawned ∉ storedHandles w.trace ∧ AtMostOneLive (startNodeProcess w)) := by
  refine ⟨?_, ?_, ?_, fun hr => ?_⟩
  · intro h hh
    rw [startNodeProcess_eq, effectsSince_mk]
    simp [launchLines, hh]
  · rw [startNodeProcess_eq]
  · rw [startNodeProcess_eq]
    simp only [storedHandles_append, storedHandles_launchLines]
  · have hinv := childInvariant_of_reachable hr
    have hnext : ChildInvariant (startNodeProcess w) := by
      rw [startNodeProcess_eq]
      exact hinv.launch (k := w.spawned) rfl (le_refl _) (Nat.lt_succ_self _) rfl
        (storedHandles_launchLines w) (fun h₀ hh => kill_mem_launchLines w h₀ hh)
    exact ⟨hinv.2.2.2, hinv.2.1, fun hmem => absurd (hinv.1 _ hmem) (lt_irrefl _),
      hnext.2.2.2⟩

/-- Witness of `at_most_one_live_child`: the state after a successful startup
and a successful Restart. -/
theorem at_most_one_live_child_witness :
    AtMostOneLive (runFrom "C:\\Users\\u\\AppData\\Roaming" []
      [.startup { mkdir := none, git := .fulfilled, npm := [.close (some 0)] },
        .restart { mkdir := none, git := .fulfilled, npm := [.close (some 0)] }]) :=
  ((at_most_one_live_child _).2.2.2 ⟨_, _, _, rfl⟩).1

/-- C9: in every reachable state in which a handle has ever been stored, also
after the `close` event of the child, a handle is held (the last one stored:
the `close` listener does not clear it), and the Exit handler sends it a
termination signal and then calls `app.quit`. -/
theorem exit_signals_held_child (w : World) (hr : Reachable w)
    (hstored : storedHandles w.trace ≠ []) :
    ∃ h, w.nodeProcess = some h ∧ (storedHandles w.trace).getLast? = some h ∧
      effectsSince w (exitClick w) = [.kill h, .quit] ∧
      ∀ code, (childClose code w).nodeProcess = some h ∧
        effectsSince (childClose code w) (exitClick (childClose code w)) = [.kill h, .quit] := by
  have hinv := childInvariant_of_reachable hr
  obtain ⟨h, hlast⟩ : ∃ h, (storedHandles w.trace).getLast? = some h := by
    cases hl : (storedHandles w.trace).getLast? with
    | none => exact absurd (List.getLast?_eq_none_iff.mp hl) hstored
    | some h => exact ⟨h, rfl⟩
  have hcur : w.nodeProcess = some h := hinv.2.2.1.trans hlast
  refine ⟨h, hcur, hlast, ?_, fun code => ⟨hcur, ?_⟩⟩
  · simp [exitClick, hcur, effectsSince, emit]
  · simp [exitClick, childClose, consoleLog, hcur, effectsSince, emit]

/-- Witness of `exit_signals_held_child`: the startup succeeded and the child
has exited since. -/
theorem exit_signals_held_child_witness :
    ∃ h, (runFrom "C:\\Users\\u\\AppData\\Roaming" []
        [.startup { mkdir := none, git := .fulfilled, npm := [.close (some 0)] },
          .childClose (some 1)]).nodeProcess = some h :=
  (exit_signals_held_child _ ⟨_, _, _, rfl⟩ (by decide)).imp (fun _ hh => hh.1)


/-! ## The first run -/

/-- C10 (amended): when the working copy is absent, the clone is attempted and
succeeds, npm closes with code 0 after any stdout and stderr chunks, and the
spawn of the supervised process returns a handle, the startup sequence
performs clone, install and launch exactly once each in that order, stores the
new handle and does not call `app.quit`; the only lines it writes to the error
log are those that forward the stderr chunks of npm, so the error log stays
empty when npm writes nothing to its standard error. -/
theorem first_run_completes (env : Env) (w : World) (evs : List NpmEvent)
    (hmk : MkdirPasses env w) (habsent : existsSync w (repoPath w) = false)
    (hgit : env.git = .fulfilled) (hdata : ∀ ev ∈ evs, ev.isData = true)
    (hnpm : env.npm = evs ++ [.close (some 0)]) :
    FirstRunCompletes env w ∧
      (effectsSince w (initializeSequence env w).2).filter isErrorLine = stderrLines evs := by
  have hs : syncResult env w = .ok := by
    unfold syncResult
    rw [sync_eq_clone env w hmk habsent, hgit]
  have hsl : syncLines env w = [.call .cloneOrPullRepo] ++ dirLines w ++
      [.log "Repository not found, attempting to clone...", .clone remoteUrl (repoPath w),
        .log "Repository cloned successfully", .settled .cloneOrPullRepo true] := by
    unfold syncLines
    rw [sync_eq_clone env w hmk habsent, hgit, effectsSince_mk]
  have hi : npmResult env.npm "" "" = .ok := by
    rw [hnpm, npmResult_data_append _ _ _ _ hdata]
    simp [npmResult]
  have hl : npmLines env.npm "" "" = dataLines evs ++
      [.log "npm install completed successfully"] := by
    rw [hnpm, npmLines_data_append _ _ _ _ hdata]
    simp [npmLines]
  have hlaunch : Launches env w := ⟨hs, hi⟩
  have hδ : startupLines env w
      = [.log "Starting initialization...", .log "Cloning or pulling repository...",
          .call .cloneOrPullRepo] ++ dirLines w ++
        ([.log "Repository not found, attempting to clone...", .clone remoteUrl (repoPath w),
            .log "Repository cloned successfully", .settled .cloneOrPullRepo true,
            .log "Installing dependencies...", .call .installDependencies,
            .log "Starting npm install...",
            .spawn w.spawned "npm" ["install"] (repoPath w) true] ++ dataLines evs ++
          ([.log "npm install completed successfully", .settled .installDependencies true,
            .log "Starting node process..."] ++ launchLines (afterInstall w) ++
          [.log "Initialization completed successfully"])) := by
    simp [startupLines, startupTail, installLines, hs, hi, hl, hsl, settleLine]
  have hdl : ∀ p : Effect → Bool, (∀ s, p (.mkdir s) = false) → (dirLines w).filter p = [] :=
    fun p hp => filter_dirLines p w hp
  unfold FirstRunCompletes
  rw [effectsSince_startup]
  refine ⟨⟨?_, ?_, ?_, ?_, ?_⟩, ?_⟩
  · rw [startup_eq]
    simp [sequenceResult, hs, hi]
  · rw [callTrace_startupLines, hs, hi]
    rfl
  · rw [hδ]
    have h₁ := hdl isExternalStep (fun _ => rfl)
    have h₂ := filter_dataLines isExternalStep evs
      (by intro e; cases e <;> simp [isConsole, isExternalStep])
    cases hn : w.nodeProcess <;>
      simp [List.filter_append, h₁, h₂, isExternalStep, launchLines, afterInstall, hn,
        repoPath, appDataPath]
  · rw [startup_eq]
    simp [sequenceChild, hlaunch]
  · rw [hδ]
    have h₁ : Effect.quit ∉ dirLines w := fun h => by
      have := dirLines_mkdir w _ h
      cases this
    have h₂ := dataLines_not_mem evs .quit rfl
    cases hn : w.nodeProcess <;> simp [h₁, h₂, launchLines, afterInstall, hn]
  · rw [hδ]
    have h₁ := hdl isErrorLine (fun _ => rfl)
    cases hn : w.nodeProcess <;>
      simp [List.filter_append, h₁, filter_error_dataLines, isErrorLine, launchLines,
        afterInstall, hn]

/-- Witness of `first_run_completes`: nothing exists yet, the clone succeeds
and `npm install` exits with code 0 without output. -/
theorem first_run_completes_witness :
    CleanFirstRun { mkdir := none, git := .fulfilled, npm := [.close (some 0)] } freshWorld :=
  first_run_completes { mkdir := none, git := .fulfilled, npm := [.close (some 0)] }
    freshWorld [] (by decide) (by decide) (by decide) (by decide) (by decide)

/-- C10 as stated fails: nothing exists yet, the clone succeeds and
`npm install` exits with code 0 after a warning on its standard error; the
sequence completes, and the warning is written to the error log. -/
theorem first_run_logs_npm_warnings :
    MkdirPasses
        { mkdir := none, git := .fulfilled,
          npm := [.stderr "npm WARN deprecated", .close (some 0)] } freshWorld ∧
      existsSync freshWorld (repoPath freshWorld) = false ∧
      (effectsSince freshWorld (initializeSequence
        { mkdir := none, git := .fulfilled,
          npm := [.stderr "npm WARN deprecated", .close (some 0)] } freshWorld).2).filter
          isErrorLine
        = [.error "npm install error: npm WARN deprecated"] ∧
      ¬ CleanFirstRun
        { mkdir := none, git := .fulfilled,
          npm := [.stderr "npm WARN deprecated", .close (some 0)] } freshWorld :=
  ⟨by decide, by decide, by decide, fun h => absurd h.2 (by decide)⟩


end DsModInstaller
